import Mathlib

/-!
Verification of the optical-metrics calculation engine (`src/run.py`).

Modelling conventions (shallow embedding):

* Python floats are modelled by `EF`: an exact rational (`EF.fin`), positive
  infinity (`EF.inf`), negative infinity (`EF.ninf`), or `EF.nan`.  Finite
  arithmetic is exact rational arithmetic (IEEE rounding is idealised away);
  the special-value propagation rules (inf/nan arithmetic, comparisons that
  are false on NaN, Python's raising float division by zero) are modelled
  faithfully.
* `math.sqrt` and `math.log2` send rationals to irrationals; the development
  is parameterised by functions `sq lg : ℚ → ℚ` standing for the exact real
  square root / base-2 logarithm restricted to the (finite, in-domain)
  arguments.  Theorems assume only the properties of the real functions they
  actually use, and witnesses instantiate them with any function having those
  properties.
* Python `float` division raises `ZeroDivisionError` when the divisor is
  (exactly) zero, and `math.log2`/`math.sqrt` raise `ValueError` outside
  their domains; fallible operations return `Option` (`none` = an exception
  propagates out of `calculate`).
* Input mappings are `Params := String → Option PyVal`; `PyVal` records for
  each present value what `float(value)` and `str(value)` observe of it.
-/

-- Batteries marks the rational-arithmetic primitives `@[irreducible]`, which
-- only blocks elaborator-side evaluation of closed rational terms; restore
-- the default so that concrete runs of the embedded code reduce by `decide`.
attribute [local semireducible] Rat.add Rat.mul Rat.inv Rat.sub

/-- A Python float value: finite (exact rational), +inf, -inf, or NaN. -/
inductive EF where
  | fin : ℚ → EF
  | inf : EF
  | ninf : EF
  | nan : EF
  deriving DecidableEq, Repr

namespace EF

/-- Python `<` on floats: any comparison involving NaN is false. -/
def pyLt : EF → EF → Bool
  | fin a, fin b => decide (a < b)
  | fin _, inf => true
  | ninf, fin _ => true
  | ninf, inf => true
  | _, _ => false

/-- Python `<=` on floats: any comparison involving NaN is false. -/
def pyLe : EF → EF → Bool
  | fin a, fin b => decide (a ≤ b)
  | fin _, inf => true
  | inf, inf => true
  | ninf, fin _ => true
  | ninf, inf => true
  | ninf, ninf => true
  | _, _ => false

/-- Python `>` on floats. -/
def pyGt (a b : EF) : Bool := pyLt b a

/-- Python `>=` on floats. -/
def pyGe (a b : EF) : Bool := pyLe b a

/-- `math.isfinite`. -/
def isFinite : EF → Bool
  | fin _ => true
  | _ => false

/-- Python truthiness of a float: only (±)0.0 is falsy; NaN and ±inf are truthy. -/
def pyTruthy : EF → Bool
  | fin a => decide (a ≠ 0)
  | _ => true

/-- IEEE addition. -/
def pyAdd : EF → EF → EF
  | nan, _ => nan
  | _, nan => nan
  | inf, ninf => nan
  | ninf, inf => nan
  | inf, _ => inf
  | _, inf => inf
  | ninf, _ => ninf
  | _, ninf => ninf
  | fin a, fin b => fin (a + b)

/-- IEEE negation. -/
def pyNeg : EF → EF
  | fin a => fin (-a)
  | inf => ninf
  | ninf => inf
  | nan => nan

/-- IEEE subtraction. -/
def pySub (a b : EF) : EF := pyAdd a (pyNeg b)

/-- IEEE multiplication (`inf * 0 = nan`, sign rules for infinities). -/
def pyMul : EF → EF → EF
  | nan, _ => nan
  | _, nan => nan
  | fin a, fin b => fin (a * b)
  | inf, inf => inf
  | inf, ninf => ninf
  | ninf, inf => ninf
  | ninf, ninf => inf
  | inf, fin b => if b > 0 then inf else if b < 0 then ninf else nan
  | ninf, fin b => if b > 0 then ninf else if b < 0 then inf else nan
  | fin a, inf => if a > 0 then inf else if a < 0 then ninf else nan
  | fin a, ninf => if a > 0 then ninf else if a < 0 then inf else nan

/-- Python float division.  A divisor of (exactly) zero raises
`ZeroDivisionError` (`none`); otherwise IEEE rules apply (signed zeros are
collapsed to `fin 0`). -/
def pyDiv : EF → EF → Option EF
  | a, fin b =>
    if b = 0 then none else
      match a with
      | nan => some nan
      | inf => some (if b > 0 then inf else ninf)
      | ninf => some (if b > 0 then ninf else inf)
      | fin x => some (fin (x / b))
  | nan, _ => some nan
  | _, nan => some nan
  | inf, inf => some nan
  | inf, ninf => some nan
  | ninf, inf => some nan
  | ninf, ninf => some nan
  | fin _, inf => some (fin 0)
  | fin _, ninf => some (fin 0)

/-- `abs` on floats. -/
def pyAbs : EF → EF
  | fin a => fin |a|
  | nan => nan
  | _ => inf

/-- Python `min(a, b)` (two arguments): returns `b` if `b < a` else `a`. -/
def pyMin (a b : EF) : EF := if pyLt b a then b else a

/-- Python `max(a, b)` (two arguments): returns `b` if `a < b` else `a`. -/
def pyMax (a b : EF) : EF := if pyLt a b then b else a

/-- Python `x ** n` for a positive integer literal exponent. -/
def pyPow (x : EF) (n : ℕ) : EF :=
  match x with
  | fin a => fin (a ^ n)
  | inf => inf
  | ninf => if n % 2 = 0 then inf else ninf
  | nan => nan

/-- `math.hypot`: infinite if either argument is (±)infinite (even alongside
NaN), NaN if either is NaN, else `√(a² + b²)` (via the sqrt parameter). -/
def pyHypot (sq : ℚ → ℚ) : EF → EF → EF
  | inf, _ => inf
  | ninf, _ => inf
  | _, inf => inf
  | _, ninf => inf
  | nan, _ => nan
  | _, nan => nan
  | fin a, fin b => fin (sq (a * a + b * b))

/-- `math.sqrt`: raises `ValueError` on negative arguments. -/
def pySqrt (sq : ℚ → ℚ) : EF → Option EF
  | fin a => if a < 0 then none else some (fin (sq a))
  | inf => some inf
  | ninf => none
  | nan => some nan

/-- `math.log2`: raises `ValueError` on non-positive arguments. -/
def pyLog2 (lg : ℚ → ℚ) : EF → Option EF
  | fin a => if a ≤ 0 then none else some (fin (lg a))
  | inf => some inf
  | ninf => none
  | nan => some nan

/-- `math.floor` of a finite float, as used under an `isfinite` guard. -/
def pyFloor : EF → ℤ
  | fin a => ⌊a⌋
  | _ => 0

/-- `math.ceil` of a finite float, as used under an `isfinite` guard. -/
def pyCeil : EF → ℤ
  | fin a => ⌈a⌉
  | _ => 0

end EF

open EF


/-- A value present in the input mapping, as observed by the operations the
program applies to it: `float(v)` (numeric coercion) and `str(v)`.
`num x` is a value that coerces to the float `x` (ints, floats, bools, and
JSON `Infinity`/`NaN` literals); `str s c` is a string, with `c` the result
of `float(s)` (`some x` when the string parses as the float `x` — the parse
itself is not modelled); `null` is Python `None` (skipped by `_as_float`,
`str()` is `"None"`); `obj` is any other value (list/dict), on which
`float()` raises `TypeError` and whose `str()` is never a bare axis letter. -/
inductive PyVal where
  | num : EF → PyVal
  | str : String → Option EF → PyVal
  | null : PyVal
  | obj : PyVal
  deriving DecidableEq

/-- An input mapping (Python dict): a partial map from key to value. -/
abbrev Params := String → Option PyVal

/-- What `float(v)` yields for a present value, `none` when the conversion
raises (`TypeError`/`ValueError`) or the value is `None` (the `_as_float`
guard skips `None` and the `except` clause skips failed conversions — both
fall through to the next candidate key). -/
def PyVal.toFloat : PyVal → Option EF
  | .num x => some x
  | .str _ c => c
  | .null => none
  | .obj => none

/-- What `str(v)` yields, as far as the program observes it (only the
motion-axis selector inspects it, comparing against `"H"` after
`strip().upper()`; `str()` of a non-string value is never a bare letter,
represented here by a placeholder). -/
def PyVal.toStr : PyVal → String
  | .str s _ => s
  | .null => "None"
  | .num _ => "#num"
  | .obj => "#obj"

-- ------------------------------------------------------------------
-- `_as_float` (src/run.py lines 9-16)
-- ------------------------------------------------------------------

/-- `_as_float(values, *keys, default=...)`: scan the candidate keys in
order; return the conversion of the first present, non-`None`, convertible
value; fall through on conversion failure; return the default when no
candidate converts. -/
def as_float (values : Params) : List String → Option EF → Option EF
  | [], default => default
  | k :: ks, default =>
    match (values k).bind PyVal.toFloat with
    | some x => some x
    | none => as_float values ks default

/-- Spec-side restatement of the `_as_float` contract (§4.1): the first key
whose value converts to a float, else the caller-supplied default. -/
def firstConvertible (values : Params) (keys : List String) (default : Option EF) : Option EF :=
  match keys.findSome? (fun k => (values k).bind PyVal.toFloat) with
  | some x => some x
  | none => default

-- ------------------------------------------------------------------
-- Python truthiness helpers for `x or 0.0` / `if x and y` idioms
-- ------------------------------------------------------------------

/-- Truthiness of an optional float (`None` is falsy). -/
def optTruthy : Option EF → Bool
  | some x => pyTruthy x
  | none => false

/-- Python `x or 0.0` where `x` is an optional float. -/
def orZero (o : Option EF) : EF :=
  match o with
  | some x => if pyTruthy x then x else EF.fin 0
  | none => EF.fin 0

/-- Python `x or float("inf")` where `x` is an optional float. -/
def orInf (o : Option EF) : EF :=
  match o with
  | some x => if pyTruthy x then x else EF.inf
  | none => EF.inf

-- input-mapping keys (src/run.py `calculate`)
def kSensorW : String := "sensor_width_mm"
def kSensorH : String := "sensor_height_mm"
def kSensorDiag : String := "sensor_diagonal_mm"
def kPxW : String := "sensor_pixel_size_width_um"
def kPxH : String := "sensor_pixel_size_height_um"
def kFocal : String := "lens_focal_length_mm"
def kFstop : String := "lens_fstop"
def kLensDiag : String := "lens_diagonal_mm"
def kDistortion : String := "lens_distortion_perc"
def kLensRes : String := "lens_resolution"
def kRelIllum : String := "lens_relative_illumination"
def kWd : String := "working_distance_mm"
def kTargetW : String := "target_fov_width"
def kTargetH : String := "target_fov_height"
def kFps : String := "sensor_framerate"
def kBlur : String := "object_allowed_blur_pixels"
def kSpeed : String := "object_initial_speed_mm_s"
def kAxis : String := "object_motion_axis"
def kW : String := "W"
def kH : String := "H"

-- sampling-regime verdict strings (src/run.py lines 187-194)
def regimeDiffr : String := "optics-limited (diffraction)"
def regimeAberr : String := "optics-limited (aberrations)"
def regimeSensor : String := "sensor-limited"
def regimeBalanced : String := "balanced"

-- ------------------------------------------------------------------
-- result-record sections (the nested dict returned by `calculate`);
-- field names follow the dict keys, with a trailing apostrophe where the
-- original name is unavailable in this development
-- ------------------------------------------------------------------

structure SensorSec where
  pixels_horz : EF
  pixels_vert : EF
  total_pixels : EF
  aspect_ratio' : EF
  sensor_nyquist_lp_per_mm : EF
  deriving DecidableEq

structure LensGeometrySec where
  aperture_diameter_mm : EF
  effective_f_number : EF
  working_distance_mm : EF
  image_distance_mm : EF
  magnification_percent : EF
  deriving DecidableEq

structure FovSamplingSec where
  fov_width_mm : EF
  fov_height_mm : EF
  fov_diagonal_mm : EF
  fov_area_mm2 : EF
  pixels_per_mm_x : EF
  pixels_per_mm_y : EF
  mm_per_pixel_x : EF
  mm_per_pixel_y : EF
  fov_width_actual_vs_target_percent : EF
  fov_height_actual_vs_target_percent : EF
  deriving DecidableEq

structure MotionExposureSec where
  object_speed_mm_s : EF
  object_speed_px_s : EF
  frame_period_us : EF
  max_exposure_us_motion_blur_for_allowed_blur_px : EF
  max_exposure_us_frame : EF
  recommended_exposure_us : EF
  deriving DecidableEq

/-- the dict returned by `_dof_hyperfocal` (src/run.py line 58). -/
structure DofSec where
  circle_of_confusion_mm_used : EF
  near_mm : EF
  far_mm : EF
  DOF_mm : EF
  hyperfocal_mm : EF
  deriving DecidableEq

/-- the dict returned by `_diffraction_sampling_metrics` (src/run.py lines 68-75). -/
structure DiffMetrics where
  wavelength_um : EF
  airy_disk_diameter_um : EF
  airy_disk_diameter_pixels : EF
  diffraction_cutoff_lp_per_mm : EF
  nyquist_over_diffraction_cutoff : EF
  sensor_nyquist_lp_per_mm : EF
  deriving DecidableEq

structure DiffractionMtfSec where
  wavelength_um : EF
  airy_disk_diameter_um : EF
  airy_disk_diameter_pixels : EF
  diffraction_cutoff_lp_per_mm : EF
  nyquist_over_diffraction_cutoff : EF
  lens_mtf50_lp_per_mm : EF
  mtf50_vs_nyquist_ratio' : EF
  sampling_regime : String
  deriving DecidableEq

structure CoverageDistortionSec where
  coverage_ok : Bool
  coverage_margin_mm : EF
  coverage_ratio_actual_vs_design : EF
  fov_width_scale_vs_design : EF
  fov_height_scale_vs_design : EF
  fov_area_scale_vs_design : EF
  effective_distortion_percent_at_actual_edge : EF
  edge_position_error_mm_effective : EF
  deriving DecidableEq

/-- the dict returned by `_illumination_metrics` (src/run.py lines 97-103). -/
structure IlluminationSec where
  relative_illumination_center_percent : EF
  relative_illumination_corner_percent : EF
  corner_to_center_ratio' : EF
  vignetting_loss_percent : EF
  exposure_compensation_stops_at_corners : EF
  deriving DecidableEq

structure AppearancesSec where
  appearance_axis_used : String
  traversal_extent_mm : EF
  duration_s : EF
  expected_frames : EF
  frames_min : ℤ
  frames_max : ℤ
  displacement_per_frame_mm : EF
  displacement_per_frame_px : EF
  deriving DecidableEq

structure FlagsSec where
  diffraction_dominant : Bool
  exposure_limited_by_frame : Bool
  potential_vignetting : Bool
  deriving DecidableEq

/-- the aggregate result record returned by `calculate` (src/run.py 232-304). -/
structure CalcResult where
  sensor : SensorSec
  lens_geometry : LensGeometrySec
  fov_sampling : FovSamplingSec
  motion_exposure : MotionExposureSec
  depth_of_field : DofSec
  diffraction_mtf : DiffractionMtfSec
  coverage_distortion : CoverageDistortionSec
  illumination : IlluminationSec
  appearances : AppearancesSec
  flags : FlagsSec
  deriving DecidableEq

-- ------------------------------------------------------------------
-- `_sensor_pixels` (src/run.py lines 19-30)
-- ------------------------------------------------------------------

def _sensor_pixels (sensor_w_mm sensor_h_mm : EF) (px_w_um px_h_um : Option EF) :
    Option (EF × EF) := do
  let px_w_mm ← pyDiv (orZero px_w_um) (fin 1000)
  let px_h_mm ← pyDiv (orZero px_h_um) (fin 1000)
  if pyLe px_w_mm (fin 0) && pyLe px_h_mm (fin 0) then
    return (fin 0, fin 0)
  else
    -- chained comparison `px_w_mm <= 0 <= px_h_mm`
    let px_w_mm := if pyLe px_w_mm (fin 0) && pyLe (fin 0) px_h_mm then px_h_mm else px_w_mm
    let px_h_mm := if pyLe px_h_mm (fin 0) && pyLe (fin 0) px_w_mm then px_w_mm else px_h_mm
    let pixels_horz ← if pyGt px_w_mm (fin 0) then pyDiv sensor_w_mm px_w_mm else pure (fin 0)
    let pixels_vert ← if pyGt px_h_mm (fin 0) then pyDiv sensor_h_mm px_h_mm else pure (fin 0)
    return (pixels_horz, pixels_vert)

-- ------------------------------------------------------------------
-- `_lens_geometry` (src/run.py lines 33-42)
-- ------------------------------------------------------------------

def _lens_geometry (f_mm working_distance_mm : EF) : Option (EF × EF) :=
  if pyLe working_distance_mm f_mm then
    some (EF.inf, EF.inf)
  else do
    let di ← pyDiv (pyMul f_mm working_distance_mm) (pySub working_distance_mm f_mm)
    let q ← pyDiv di working_distance_mm
    return (di, pyAbs q)

-- ------------------------------------------------------------------
-- `_dof_hyperfocal` (src/run.py lines 45-58)
-- ------------------------------------------------------------------

def _dof_hyperfocal (f_mm f_number coc_mm subject_distance_mm : EF) : Option DofSec := do
  let f := f_mm
  let N := f_number
  let c := pyMax coc_mm (fin (1/1000000000000))
  let s := subject_distance_mm
  let h0 ← pyDiv (pyMul f f) (pyMul N c)
  let H := pyAdd h0 f
  let Dn ← pyDiv (pyMul H s) (pyAdd H (pySub s f))
  if pyGe s H then
    return ⟨c, Dn, EF.inf, EF.inf, H⟩
  else
    let Df ← pyDiv (pyMul H s) (pySub H (pySub s f))
    return ⟨c, Dn, Df, pySub Df Dn, H⟩

-- ------------------------------------------------------------------
-- `_diffraction_sampling_metrics` (src/run.py lines 61-75); the
-- `wavelength_um` parameter is never overridden by a caller, so its default
-- 0.55 is inlined
-- ------------------------------------------------------------------

def _diffraction_sampling_metrics (pixel_size_mm_min f_number_eff : EF) : Option DiffMetrics := do
  let wavelength_um : EF := fin (11/20)
  let lambda_mm ← pyDiv wavelength_um (fin 1000)
  let airy_um := pyMul (pyMul (fin (61/25)) wavelength_um) f_number_eff
  let airy_px ← if pyGt pixel_size_mm_min (fin 0) then
      pyDiv airy_um (pyMul pixel_size_mm_min (fin 1000))
    else pure EF.inf
  let nyquist_lp_per_mm ← if pyGt pixel_size_mm_min (fin 0) then
      pyDiv (fin 1) (pyMul (fin 2) pixel_size_mm_min)
    else pure EF.inf
  let diffraction_cutoff ← if pyGt lambda_mm (fin 0) && pyGt f_number_eff (fin 0) then
      pyDiv (fin 1) (pyMul lambda_mm f_number_eff)
    else pure EF.inf
  let ratio' ← if isFinite diffraction_cutoff && pyGt diffraction_cutoff (fin 0) then
      pyDiv nyquist_lp_per_mm diffraction_cutoff
    else pure EF.inf
  return ⟨wavelength_um, airy_um, airy_px, diffraction_cutoff, ratio', nyquist_lp_per_mm⟩

-- ------------------------------------------------------------------
-- `_illumination_metrics` (src/run.py lines 78-103)
-- ------------------------------------------------------------------

def _illumination_metrics (sq lg : ℚ → ℚ) (sensor_diag_mm image_distance_mm : EF)
    (lens_relative_illumination : Option EF) : Option IlluminationSec := do
  let center_percent : EF := fin 100
  let corner_ratio ←
    match lens_relative_illumination with
    | some v => do
      let cr ← if pyGt v (fin (3/2)) then pyDiv v (fin 100) else pure v
      pure (pyMax (pyMin cr (fin 1)) (fin 0))
    | none =>
      let r := pyMul (fin (1/2)) sensor_diag_mm
      if isFinite image_distance_mm && pyGt image_distance_mm (fin 0) then do
        let tan_theta ← pyDiv r image_distance_mm
        let s ← pySqrt sq (pyAdd (fin 1) (pyMul tan_theta tan_theta))
        let cos_theta ← pyDiv (fin 1) s
        pure (pyPow cos_theta 4)
      else
        pure (fin 1)
  let corner_percent := pyMul (fin 100) corner_ratio
  let vignetting_loss := pyMax (fin 0) (pySub (fin 100) corner_percent)
  let stops ←
    if pyGt corner_ratio (fin 0) then do
      let q ← pyDiv (fin 1) (pyMax corner_ratio (fin (1/1000000000)))
      pyLog2 lg q
    else
      pure EF.inf
  return ⟨center_percent, corner_percent, corner_ratio, vignetting_loss, stops⟩

-- ------------------------------------------------------------------
-- the locals of `calculate` (src/run.py lines 107-230), one definition per
-- local, each recomputed from the raw mapping (the computation is pure, so
-- re-evaluation is observationally identical to Python's single evaluation)
-- ------------------------------------------------------------------

def sensor_w_mm (p : Params) : EF := orZero (as_float p [kSensorW] (some (fin 0)))

def sensor_h_mm (p : Params) : EF := orZero (as_float p [kSensorH] (some (fin 0)))

/-- line 109 value of `sensor_diag_mm`, before the line 110-111 update. -/
def sensor_diag_mm0 (p : Params) : Option EF := as_float p [kSensorDiag] none

/-- lines 109-111: `sensor_diag_mm`, recomputed as `hypot(w, h)` when falsy
(absent or zero) and both sides are positive. -/
def sensor_diag_mm (sq : ℚ → ℚ) (p : Params) : Option EF :=
  if !optTruthy (sensor_diag_mm0 p) && pyGt (sensor_w_mm p) (fin 0) &&
      pyGt (sensor_h_mm p) (fin 0) then
    some (pyHypot sq (sensor_w_mm p) (sensor_h_mm p))
  else sensor_diag_mm0 p

def px_w_um (p : Params) : Option EF := as_float p [kPxW] none

def px_h_um (p : Params) : Option EF := as_float p [kPxH] none

def pixels_pair (p : Params) : Option (EF × EF) :=
  _sensor_pixels (sensor_w_mm p) (sensor_h_mm p) (px_w_um p) (px_h_um p)

def total_pixels (p : Params) : Option EF := do
  let (pixels_horz, pixels_vert) ← pixels_pair p
  return if pyGt pixels_horz (fin 0) && pyGt pixels_vert (fin 0) then
    pyMul pixels_horz pixels_vert else fin 0

def aspect_ratio' (p : Params) : Option EF :=
  if pyGt (sensor_h_mm p) (fin 0) then pyDiv (sensor_w_mm p) (sensor_h_mm p) else some EF.inf

def pixel_size_mm_min (p : Params) : Option EF := do
  let a ← pyDiv (orInf (px_w_um p)) (fin 1000)
  let b ← pyDiv (orInf (px_h_um p)) (fin 1000)
  return pyMin a b

def sensor_nyquist_lp_per_mm (p : Params) : Option EF := do
  let psm ← pixel_size_mm_min p
  if isFinite psm && pyGt psm (fin 0) then pyDiv (fin 1) (pyMul (fin 2) psm)
  else pure EF.inf

def f_mm (p : Params) : EF := orZero (as_float p [kFocal] (some (fin 0)))

def f_stop (p : Params) : EF := orZero (as_float p [kFstop] (some (fin 0)))

def lens_diag_mm (p : Params) : EF := orZero (as_float p [kLensDiag] none)

def lens_distortion_perc (p : Params) : Option EF := as_float p [kDistortion] none

def lens_resolution_lp_per_mm (p : Params) : Option EF := as_float p [kLensRes] none

def working_distance_mm (p : Params) : EF := orZero (as_float p [kWd] (some (fin 0)))

def lens_pair (p : Params) : Option (EF × EF) :=
  _lens_geometry (f_mm p) (working_distance_mm p)

def di_mm (p : Params) : Option EF := (lens_pair p).map Prod.fst

def m_val (p : Params) : Option EF := (lens_pair p).map Prod.snd

def aperture_diameter_mm (p : Params) : Option EF :=
  if pyGt (f_stop p) (fin 0) then pyDiv (f_mm p) (f_stop p) else some EF.inf

def effective_f_number (p : Params) : Option EF := do
  let m ← m_val p
  return if pyGt (f_stop p) (fin 0) then
    pyMul (f_stop p) (pyAdd (fin 1) (if isFinite m then m else fin 0))
  else EF.inf

def fov_w_mm (p : Params) : Option EF := do
  let m ← m_val p
  if isFinite m && pyGt m (fin 0) then pyDiv (sensor_w_mm p) m else pure EF.inf

def fov_h_mm (p : Params) : Option EF := do
  let m ← m_val p
  if isFinite m && pyGt m (fin 0) then pyDiv (sensor_h_mm p) m else pure EF.inf

def fov_diag_mm (sq : ℚ → ℚ) (p : Params) : Option EF := do
  let w ← fov_w_mm p
  let h ← fov_h_mm p
  return pyHypot sq w h

def fov_area_mm2 (p : Params) : Option EF := do
  let w ← fov_w_mm p
  let h ← fov_h_mm p
  return if isFinite w && isFinite h then pyMul w h else EF.inf

def pixels_per_mm_x (p : Params) : Option EF := do
  let (pixels_horz, _) ← pixels_pair p
  let w ← fov_w_mm p
  if pyGt w (fin 0) && pyGt pixels_horz (fin 0) then pyDiv pixels_horz w else pure (fin 0)

def pixels_per_mm_y (p : Params) : Option EF := do
  let (_, pixels_vert) ← pixels_pair p
  let h ← fov_h_mm p
  if pyGt h (fin 0) && pyGt pixels_vert (fin 0) then pyDiv pixels_vert h else pure (fin 0)

def mm_per_pixel_x (p : Params) : Option EF := do
  let d ← pixels_per_mm_x p
  if pyGt d (fin 0) then pyDiv (fin 1) d else pure EF.inf

def mm_per_pixel_y (p : Params) : Option EF := do
  let d ← pixels_per_mm_y p
  if pyGt d (fin 0) then pyDiv (fin 1) d else pure EF.inf

def target_fov_w (p : Params) : Option EF := as_float p [kTargetW] none

def target_fov_h (p : Params) : Option EF := as_float p [kTargetH] none

def fov_width_actual_vs_target_percent (p : Params) : Option EF := do
  let w ← fov_w_mm p
  match target_fov_w p with
  | some t =>
    if pyTruthy t && pyGt t (fin 0) && isFinite w && pyGt w (fin 0) then do
      let r ← pyDiv w t
      return pyMul r (fin 100)
    else return EF.nan
  | none => return EF.nan

def fov_height_actual_vs_target_percent (p : Params) : Option EF := do
  let h ← fov_h_mm p
  match target_fov_h p with
  | some t =>
    if pyTruthy t && pyGt t (fin 0) && isFinite h && pyGt h (fin 0) then do
      let r ← pyDiv h t
      return pyMul r (fin 100)
    else return EF.nan
  | none => return EF.nan

def sensor_fps (p : Params) : EF := orZero (as_float p [kFps] none)

def frame_period_us (p : Params) : Option EF :=
  if pyGt (sensor_fps p) (fin 0) then pyDiv (fin 1000000) (sensor_fps p) else some EF.inf

def allowed_blur_px (p : Params) : EF := orZero (as_float p [kBlur] none)

def object_speed_mm_s (p : Params) : EF := orZero (as_float p [kSpeed] none)

/-- whitespace for Python `str.strip()`. -/
def pyIsSpace (c : Char) : Bool :=
  c = ' ' || c = '\t' || c = '\n' || c = '\r' || c = '\x0b' || c = '\x0c'

/-- ASCII uppercasing of one character (`str.upper()`; the selector is only
ever compared against the ASCII letter `"H"`). -/
def pyUpperChar (c : Char) : Char :=
  if 'a' ≤ c && c ≤ 'z' then Char.ofNat (c.toNat - 32) else c

/-- Python `s.strip().upper()`. -/
def pyStripUpper (s : String) : String :=
  ⟨(((s.data.dropWhile pyIsSpace).reverse.dropWhile pyIsSpace).reverse).map pyUpperChar⟩

/-- line 164: `str(params.get("object_motion_axis", "W")).strip().upper()`. -/
def motion_axis (p : Params) : String :=
  pyStripUpper (match p kAxis with
    | some v => v.toStr
    | none => kW)

def px_per_mm_axis (p : Params) : Option EF :=
  if motion_axis p == kH then pixels_per_mm_y p else pixels_per_mm_x p

def object_speed_px_s (p : Params) : Option EF := do
  let d ← px_per_mm_axis p
  return pyMul (object_speed_mm_s p) d

def max_exposure_us_motion (p : Params) : Option EF := do
  let s ← object_speed_px_s p
  if pyGt s (fin 0) && pyGt (allowed_blur_px p) (fin 0) then do
    let r ← pyDiv (allowed_blur_px p) s
    return pyMul (fin 1000000) r
  else if pyLe (object_speed_mm_s p) (fin 0) then
    return EF.inf
  else
    return fin 0

def max_exposure_us_frame (p : Params) : Option EF := frame_period_us p

def max_exposure_us_motion_1px (p : Params) : Option EF := do
  let s ← object_speed_px_s p
  if pyGt s (fin 0) then do
    let r ← pyDiv (fin 1) s
    return pyMul (fin 1000000) r
  else return EF.inf

def recommended_exposure_us (p : Params) : Option EF := do
  let a ← max_exposure_us_motion_1px p
  let b ← max_exposure_us_frame p
  return pyMin a b

def coc_mm (p : Params) : Option EF := do
  let psm ← pixel_size_mm_min p
  if isFinite psm then return psm
  else pyDiv (pyMax (orZero (px_w_um p)) (orZero (px_h_um p))) (fin 1000)

def dof (p : Params) : Option DofSec := do
  let c ← coc_mm p
  _dof_hyperfocal (f_mm p) (f_stop p) (if pyGt c (fin 0) then c else fin (1/1000))
    (working_distance_mm p)

def diff (p : Params) : Option DiffMetrics := do
  let psm ← pixel_size_mm_min p
  let feff ← effective_f_number p
  _diffraction_sampling_metrics (if pyGt psm (fin 0) then psm else fin (1/1000000))
    (pyMax feff (fin (1/1000000000)))

def lens_mtf50_lp_per_mm (p : Params) : Option EF := do
  let d ← diff p
  return match lens_resolution_lp_per_mm p with
    | some r => r
    | none => pyMul (fin (1/2)) d.diffraction_cutoff_lp_per_mm

def mtf50_vs_nyquist_ratio' (p : Params) : Option EF := do
  let d ← diff p
  let mt ← lens_mtf50_lp_per_mm p
  if pyGt d.sensor_nyquist_lp_per_mm (fin 0) then pyDiv mt d.sensor_nyquist_lp_per_mm
  else pure EF.inf

/-- lines 187-194: the sampling-regime verdict as a function of the three
quantities the if-chain inspects (the ratio, the lens MTF50, and the
sensor-Nyquist figure of `_diffraction_sampling_metrics`), first match wins. -/
def samplingRegime (ratio' mtf50 nyquist : EF) : String :=
  if pyGt ratio' (fin (11/10)) then regimeDiffr
  else if pyLt mtf50 (pyMul (fin (9/10)) nyquist) then regimeAberr
  else if pyLt ratio' (fin (9/10)) then regimeSensor
  else regimeBalanced

def sampling_regime (p : Params) : Option String := do
  let d ← diff p
  let mt ← lens_mtf50_lp_per_mm p
  return samplingRegime d.nyquist_over_diffraction_cutoff mt d.sensor_nyquist_lp_per_mm

/-- line 196.  The `else` branch is Python's
`bool(lens_diag and sensor_diag and lens_diag >= sensor_diag)`, which
short-circuits on the falsy operand and is therefore `false` whenever it is
reached; it is transcribed with the same (dead) comparison. -/
def coverage_ok (sq : ℚ → ℚ) (p : Params) : Bool :=
  if pyTruthy (lens_diag_mm p) && optTruthy (sensor_diag_mm sq p) then
    pyGe (lens_diag_mm p) (orZero (sensor_diag_mm sq p))
  else
    pyTruthy (lens_diag_mm p) && optTruthy (sensor_diag_mm sq p) &&
      pyGe (lens_diag_mm p) (orZero (sensor_diag_mm sq p))

def coverage_margin_mm (sq : ℚ → ℚ) (p : Params) : EF :=
  if pyTruthy (lens_diag_mm p) && optTruthy (sensor_diag_mm sq p) then
    pyMul (fin (1/2)) (pySub (lens_diag_mm p) (orZero (sensor_diag_mm sq p)))
  else EF.nan

def coverage_ratio_actual_vs_design (sq : ℚ → ℚ) (p : Params) : Option EF :=
  if pyGt (lens_diag_mm p) (fin 0) && optTruthy (sensor_diag_mm sq p) then
    pyDiv (orZero (sensor_diag_mm sq p)) (lens_diag_mm p)
  else some EF.nan

def fov_area_scale_vs_design (sq : ℚ → ℚ) (p : Params) : Option EF := do
  let r ← coverage_ratio_actual_vs_design sq p
  return if isFinite r then pyPow r 2 else EF.nan

def effective_distortion_percent_at_actual_edge (sq : ℚ → ℚ) (p : Params) : Option EF := do
  let r ← coverage_ratio_actual_vs_design sq p
  return match lens_distortion_perc p with
    | some dp => if isFinite r then (if pyLe r (fin 1) then pyMul dp r else dp) else EF.nan
    | none => EF.nan

def edge_position_error_mm_effective (sq : ℚ → ℚ) (p : Params) : Option EF := do
  let e ← effective_distortion_percent_at_actual_edge sq p
  let fd ← fov_diag_mm sq p
  if isFinite e then do
    let r ← pyDiv e (fin 100)
    return pyMul r (pyMul (fin (1/2)) fd)
  else return EF.nan

def lens_relative_illumination (p : Params) : Option EF := as_float p [kRelIllum] none

def illum (sq lg : ℚ → ℚ) (p : Params) : Option IlluminationSec := do
  let d ← di_mm p
  _illumination_metrics sq lg (orZero (sensor_diag_mm sq p)) d (lens_relative_illumination p)

def appearance_axis_used (p : Params) : String := motion_axis p

def traversal_extent_mm (p : Params) : Option EF :=
  if motion_axis p == kH then fov_h_mm p else fov_w_mm p

def duration_s (p : Params) : Option EF := do
  let e ← traversal_extent_mm p
  if pyGt (object_speed_mm_s p) (fin 0) && isFinite e then pyDiv e (object_speed_mm_s p)
  else pure EF.inf

def expected_frames (p : Params) : Option EF := do
  let d ← duration_s p
  return if pyGt (sensor_fps p) (fin 0) && isFinite d then pyMul d (sensor_fps p) else EF.inf

def frames_min (p : Params) : Option ℤ := do
  let e ← expected_frames p
  return if isFinite e then pyFloor e else 0

def frames_max (p : Params) : Option ℤ := do
  let e ← expected_frames p
  return if isFinite e then pyCeil e else 0

def displacement_per_frame_mm (p : Params) : Option EF :=
  if pyGt (sensor_fps p) (fin 0) then pyDiv (object_speed_mm_s p) (sensor_fps p)
  else some EF.inf

def displacement_per_frame_px (p : Params) : Option EF := do
  let d ← displacement_per_frame_mm p
  let ax ← px_per_mm_axis p
  return if isFinite d then pyMul d ax else EF.inf

def diffraction_dominant (p : Params) : Option Bool := do
  let d ← diff p
  return pyGt d.nyquist_over_diffraction_cutoff (fin 1)

def exposure_limited_by_frame (p : Params) : Option Bool := do
  let fr ← max_exposure_us_frame p
  let mo ← max_exposure_us_motion p
  return if isFinite fr && isFinite mo then pyLt fr mo else false

def potential_vignetting (sq lg : ℚ → ℚ) (p : Params) : Option Bool := do
  let il ← illum sq lg p
  return !coverage_ok sq p || pyLt il.corner_to_center_ratio' (fin (7/10))

-- ------------------------------------------------------------------
-- `calculate` (src/run.py lines 106-304): evaluate every local in source
-- order (an exception anywhere makes the whole call fail) and assemble the
-- result record
-- ------------------------------------------------------------------

/-- the `"sensor"` section (source lines 107-124 / 233-239). -/
def sensor_sec (p : Params) : Option SensorSec := do
  let (pixels_horz, pixels_vert) ← pixels_pair p
  let tot ← total_pixels p
  let asp ← aspect_ratio' p
  let ny ← sensor_nyquist_lp_per_mm p
  return ⟨pixels_horz, pixels_vert, tot, asp, ny⟩

/-- the `"lens_geometry"` section (source lines 126-135 / 240-246). -/
def lens_geometry_sec (p : Params) : Option LensGeometrySec := do
  let (di, m) ← lens_pair p
  let ap ← aperture_diameter_mm p
  let feff ← effective_f_number p
  return ⟨ap, feff, working_distance_mm p, di,
    if isFinite m then pyMul m (fin 100) else EF.inf⟩

/-- the `"fov_sampling"` section (source lines 137-158 / 247-258). -/
def fov_sampling_sec (sq : ℚ → ℚ) (p : Params) : Option FovSamplingSec := do
  let fw ← fov_w_mm p
  let fh ← fov_h_mm p
  let fd ← fov_diag_mm sq p
  let fa ← fov_area_mm2 p
  let ppx ← pixels_per_mm_x p
  let ppy ← pixels_per_mm_y p
  let mpx ← mm_per_pixel_x p
  let mpy ← mm_per_pixel_y p
  let tw ← fov_width_actual_vs_target_percent p
  let th ← fov_height_actual_vs_target_percent p
  return ⟨fw, fh, fd, fa, ppx, ppy, mpx, mpy, tw, th⟩

/-- the `"motion_exposure"` section (source lines 160-179 / 259-266). -/
def motion_exposure_sec (p : Params) : Option MotionExposureSec := do
  let fp ← frame_period_us p
  let spx ← object_speed_px_s p
  let mem ← max_exposure_us_motion p
  let mef ← max_exposure_us_frame p
  let _ ← max_exposure_us_motion_1px p
  let rcm ← recommended_exposure_us p
  return ⟨object_speed_mm_s p, spx, fp, mem, mef, rcm⟩

/-- the `"diffraction_mtf"` section (source lines 184-194 / 268-277). -/
def diffraction_mtf_sec (p : Params) : Option DiffractionMtfSec := do
  let dm ← diff p
  let mt ← lens_mtf50_lp_per_mm p
  let mtr ← mtf50_vs_nyquist_ratio' p
  let reg ← sampling_regime p
  return ⟨dm.wavelength_um, dm.airy_disk_diameter_um, dm.airy_disk_diameter_pixels,
    dm.diffraction_cutoff_lp_per_mm, dm.nyquist_over_diffraction_cutoff, mt, mtr, reg⟩

/-- the `"coverage_distortion"` section (source lines 196-214 / 278-287). -/
def coverage_distortion_sec (sq : ℚ → ℚ) (p : Params) : Option CoverageDistortionSec := do
  let cr ← coverage_ratio_actual_vs_design sq p
  let cas ← fov_area_scale_vs_design sq p
  let ed ← effective_distortion_percent_at_actual_edge sq p
  let ee ← edge_position_error_mm_effective sq p
  return ⟨coverage_ok sq p, coverage_margin_mm sq p, cr, cr, cr, cas, ed, ee⟩

/-- the `"appearances"` section (source lines 219-226 / 289-298). -/
def appearances_sec (p : Params) : Option AppearancesSec := do
  let te ← traversal_extent_mm p
  let du ← duration_s p
  let exf ← expected_frames p
  let fmin ← frames_min p
  let fmax ← frames_max p
  let dpm ← displacement_per_frame_mm p
  let dpx ← displacement_per_frame_px p
  return ⟨appearance_axis_used p, te, du, exf, fmin, fmax, dpm, dpx⟩

/-- the `"flags"` section (source lines 228-230 / 299-303). -/
def flags_sec (sq lg : ℚ → ℚ) (p : Params) : Option FlagsSec := do
  let dd ← diffraction_dominant p
  let elf ← exposure_limited_by_frame p
  let pv ← potential_vignetting sq lg p
  return ⟨dd, elf, pv⟩

def calculate (sq lg : ℚ → ℚ) (p : Params) : Option CalcResult := do
  let sen ← sensor_sec p
  let lgs ← lens_geometry_sec p
  let fov ← fov_sampling_sec sq p
  let mot ← motion_exposure_sec p
  let dofv ← dof p
  let dms ← diffraction_mtf_sec p
  let cov ← coverage_distortion_sec sq p
  let il ← illum sq lg p
  let app ← appearances_sec p
  let fl ← flags_sec sq lg p
  return ⟨sen, lgs, fov, mot, dofv, dms, cov, il, app, fl⟩

/-- the empty input mapping `{}`. -/
def emptyParams : Params := fun _ => none

/-- the spec's fixed "1-pixel-blur" exposure bound as a function of the
object speed in pixels per second: `1e6 × 1 / speed`, `+∞` when that speed
is not positive. -/
def onePixelBound (s : EF) : EF :=
  if pyGt s (fin 0) = true then pyMul (fin 1000000) ((pyDiv (fin 1) s).getD EF.nan)
  else EF.inf

/-- inputs exercising a motion-blur-constrained recommendation. -/
def pC3 : Params := fun k =>
  if k = kSensorW then some (.num (fin 10))
  else if k = kSensorH then some (.num (fin 10))
  else if k = kPxW then some (.num (fin 5))
  else if k = kPxH then some (.num (fin 5))
  else if k = kFocal then some (.num (fin 10))
  else if k = kFstop then some (.num (fin 2))
  else if k = kWd then some (.num (fin 110))
  else if k = kFps then some (.num (fin 100))
  else if k = kSpeed then some (.num (fin 50))
  else if k = kBlur then some (.num (fin 2))
  else none

/-- pathological inputs: a negative supplied lens diagonal. -/
def pC6 : Params := fun k =>
  if k = kLensDiag then some (.num (fin (-3)))
  else if k = kSensorDiag then some (.num (fin 10))
  else if k = kFocal then some (.num (fin 10))
  else if k = kFstop then some (.num (fin 2))
  else if k = kWd then some (.num (fin 100))
  else none

/-- inputs of the amended scenario: lens diagonal absent, sensor diagonal
supplied positive. -/
def pC6w : Params := fun k =>
  if k = kSensorDiag then some (.num (fin 10))
  else if k = kFocal then some (.num (fin 10))
  else if k = kFstop then some (.num (fin 2))
  else if k = kWd then some (.num (fin 100))
  else none

/-- inputs supplying the JSON NaN literal as the relative illumination. -/
def pC5 : Params := fun k =>
  if k = kFocal then some (.num (fin 10))
  else if k = kFstop then some (.num (fin 2))
  else if k = kWd then some (.num (fin 100))
  else if k = kRelIllum then some (.num EF.nan)
  else none

/-- the spec's round-trip scenario 1: sensor 11.3×7.1 mm, 3.45 µm pitch,
16 mm lens at f/2.8, working distance 200 mm (magnification 2/23 ≈ 0.0870,
reported as the percentage 200/23 ≈ 8.70). -/
def pC9 : Params := fun k =>
  if k = kSensorW then some (.num (fin (113/10)))
  else if k = kSensorH then some (.num (fin (71/10)))
  else if k = kPxW then some (.num (fin (69/20)))
  else if k = kPxH then some (.num (fin (69/20)))
  else if k = kFocal then some (.num (fin 16))
  else if k = kFstop then some (.num (fin (14/5)))
  else if k = kWd then some (.num (fin 200))
  else none

/-- an input mapping supplying only an explicit zero f-number. -/
def pC10z : Params := fun k => if k = kFstop then some (.num (fin 0)) else none

/-- an input mapping with a (pathological) negative f-number, on which
`calculate` completes. -/
def pC10 : Params := fun k =>
  if k = kFocal then some (.num (fin 10))
  else if k = kFstop then some (.num (fin (-1)))
  else if k = kWd then some (.num (fin 100))
  else none

/-- C10 as stated: whenever the f-number input is absent or not positive,
the record exists and carries the claimed diffraction values. -/
def C10_claimed : Prop :=
  ∀ (sq lg : ℚ → ℚ) (p : Params), pyGt (f_stop p) (fin 0) = false →
    ∃ res, calculate sq lg p = some res ∧
      res.lens_geometry.effective_f_number = EF.inf ∧
      res.diffraction_mtf.diffraction_cutoff_lp_per_mm = fin 0 ∧
      res.diffraction_mtf.nyquist_over_diffraction_cutoff = EF.inf ∧
      res.diffraction_mtf.sampling_regime = regimeDiffr ∧
      res.flags.diffraction_dominant = true

/-- C8 as stated: the reported exposure compensation equals `log2(1/r)`
(the base-2 logarithm abstracted as any function injective on positives). -/
def C8_claimed : Prop :=
  ∀ (sq lg : ℚ → ℚ), (∀ a b : ℚ, 0 < a → 0 < b → lg a = lg b → a = b) →
    ∀ (diag di : EF) (rel : Option EF) (out : IlluminationSec),
      _illumination_metrics sq lg diag di rel = some out →
      (pyDiv (fin 1) out.corner_to_center_ratio').bind (pyLog2 lg) =
        some out.exposure_compensation_stops_at_corners

-- ==================================================================
-- helper lemmas
-- ==================================================================

theorem pyDiv_isSome (a b : EF) (h : b ≠ fin 0) : (pyDiv a b).isSome = true := by
  cases b with
  | fin q =>
    have hq : ¬ q = 0 := fun hq0 => h (by rw [hq0])
    cases a <;> simp [pyDiv, hq]
  | inf => cases a <;> simp [pyDiv]
  | ninf => cases a <;> simp [pyDiv]
  | nan => cases a <;> simp [pyDiv]

-- ==================================================================
-- C7: `_as_float` is total and returns the first convertible candidate
-- ==================================================================

/-- C7: `_as_float` is total over the input mapping, an ordered candidate
list and an optional default: it returns the conversion of the value at the
first candidate key that is present, non-null, and convertible (a candidate
whose value fails conversion is skipped without raising), and when no
candidate converts it returns the caller-supplied default, which may be
absent (`none`, "no value"). -/
theorem C7_as_float_first_convertible :
    ∀ (vals : Params) (keys : List String) (default : Option EF),
      as_float vals keys default = firstConvertible vals keys default := by
  intro vals keys default
  induction keys with
  | nil => rfl
  | cons k ks ih =>
    unfold as_float firstConvertible
    cases h : (vals k).bind PyVal.toFloat with
    | none => simpa [List.findSome?, h, firstConvertible] using ih
    | some x => simp [List.findSome?, h]

-- ==================================================================
-- C2: the thin-lens conjugate
-- ==================================================================

/-- C2 (counterexample): the claim covers every focal length and working
distance, but at `f = -5`, `d = 0` (so `d > f` and the else-branch is taken)
the magnification division `abs(di / do)` is `0.0 / 0.0`, which raises
`ZeroDivisionError` instead of yielding the claimed image distance and
magnification values. -/
theorem C2_counterexample :
    pyLe (fin 0) (fin (-5)) = false ∧ _lens_geometry (fin (-5)) (fin 0) = none := by
  decide

/-- C2 (amended): if `d ≤ f` both outputs are `+∞`; otherwise, provided
`d ≠ 0` (the code raises `ZeroDivisionError` when `d = 0 > f`), the image
distance is `f·d/(d−f)` and the magnification `|image distance / d|`; and
for rational `d > f > 0` the magnification is finite and strictly
positive. -/
theorem C2_lens_conjugate :
    (∀ f d : EF, pyLe d f = true → _lens_geometry f d = some (EF.inf, EF.inf)) ∧
    (∀ f d : EF, pyLe d f = false → d ≠ fin 0 →
      ∃ di, pyDiv (pyMul f d) (pySub d f) = some di ∧
        ∃ q, pyDiv di d = some q ∧ _lens_geometry f d = some (di, pyAbs q)) ∧
    (∀ f d : ℚ, 0 < f → f < d →
      _lens_geometry (fin f) (fin d) =
        some (fin (f * d / (d - f)), fin |f * d / (d - f) / d|) ∧
      0 < |f * d / (d - f) / d|) := by
  refine ⟨?_, ?_, ?_⟩
  · intro f d h
    simp [_lens_geometry, h]
  · intro f d h hd
    have hsub : pySub d f ≠ fin 0 := by
      cases f <;> cases d <;>
        first
          | (simp [pySub, pyAdd, pyNeg]; done)
          | (simp_all [pyLe]; done)
          | (rename_i a b
             have hba : ¬ b ≤ a := by simpa [pyLe] using h
             simp only [pySub, pyAdd, pyNeg, ne_eq, fin.injEq]
             intro heq
             exact hba (by linarith))
    obtain ⟨di, hdi⟩ := Option.isSome_iff_exists.mp (pyDiv_isSome _ _ hsub)
    obtain ⟨q, hq⟩ := Option.isSome_iff_exists.mp (pyDiv_isSome di d hd)
    refine ⟨di, hdi, q, hq, ?_⟩
    simp [_lens_geometry, h, hdi, hq, Option.bind_eq_bind]
  · intro f d hf hd
    have hdpos : 0 < d := lt_trans hf hd
    have h2 : 0 < d - f := by linarith
    have hle : pyLe (fin d) (fin f) = false := by
      simp only [pyLe, decide_eq_false_iff_not, not_le]
      exact hd
    have hdf : d - f ≠ 0 := ne_of_gt h2
    have hd0 : d ≠ 0 := ne_of_gt hdpos
    have hpos : 0 < f * d / (d - f) / d :=
      div_pos (div_pos (mul_pos hf hdpos) h2) hdpos
    have e1 : pySub (fin d) (fin f) = fin (d - f) := by
      simp [pySub, pyAdd, pyNeg, sub_eq_add_neg]
    have e2 : pyDiv (pyMul (fin f) (fin d)) (fin (d - f)) = some (fin (f * d / (d - f))) := by
      simp [pyMul, pyDiv, hdf]
    have e3 : pyDiv (fin (f * d / (d - f))) (fin d) = some (fin (f * d / (d - f) / d)) := by
      simp [pyDiv, hd0]
    refine ⟨?_, abs_pos.mpr (ne_of_gt hpos)⟩
    simp [_lens_geometry, hle, e1, e2, e3, pyAbs, Option.bind_eq_bind]

/-- C2 (witness): the second and third parts applied at `f = 16`,
`d = 200`. -/
theorem C2_witness :
    (_lens_geometry (fin 16) (fin 200) =
        some (fin (16 * 200 / (200 - 16)), fin |16 * 200 / (200 - 16) / 200|) ∧
      0 < |(16 : ℚ) * 200 / (200 - 16) / 200|) ∧
    ∃ di, pyDiv (pyMul (fin 16) (fin 200)) (pySub (fin 200) (fin 16)) = some di ∧
      ∃ q, pyDiv di (fin 200) = some q ∧
        _lens_geometry (fin 16) (fin 200) = some (di, pyAbs q) :=
  ⟨C2_lens_conjugate.2.2 16 200 (by decide) (by decide),
   C2_lens_conjugate.2.1 (fin 16) (fin 200) (by decide) (by decide)⟩

-- ==================================================================
-- C1: totality of `calculate`
-- ==================================================================

-- ==================================================================
-- inversion lemmas: a successful `calculate` run determines every section
-- ==================================================================

theorem calculate_inv (sq lg : ℚ → ℚ) (p : Params) (res : CalcResult)
    (h : calculate sq lg p = some res) :
    ∃ sen lgs fov mot dofv dms cov il app fl,
      sensor_sec p = some sen ∧ lens_geometry_sec p = some lgs ∧
      fov_sampling_sec sq p = some fov ∧ motion_exposure_sec p = some mot ∧
      dof p = some dofv ∧ diffraction_mtf_sec p = some dms ∧
      coverage_distortion_sec sq p = some cov ∧ illum sq lg p = some il ∧
      appearances_sec p = some app ∧ flags_sec sq lg p = some fl ∧
      res = ⟨sen, lgs, fov, mot, dofv, dms, cov, il, app, fl⟩ := by
  simp only [calculate, Option.bind_eq_bind, Option.bind_eq_some, Option.pure_def,
    Option.some.injEq] at h
  obtain ⟨sen, h1, lgs, h2, fov, h3, mot, h4, dofv, h5, dms, h6, cov, h7, il, h8,
    app, h9, fl, h10, hres⟩ := h
  exact ⟨sen, lgs, fov, mot, dofv, dms, cov, il, app, fl,
    h1, h2, h3, h4, h5, h6, h7, h8, h9, h10, hres.symm⟩

theorem lens_geometry_sec_inv (p : Params) (lgs : LensGeometrySec)
    (h : lens_geometry_sec p = some lgs) :
    ∃ di m ap feff,
      lens_pair p = some (di, m) ∧ aperture_diameter_mm p = some ap ∧
      effective_f_number p = some feff ∧
      lgs = ⟨ap, feff, working_distance_mm p, di,
        if isFinite m then pyMul m (fin 100) else EF.inf⟩ := by
  simp only [lens_geometry_sec, Option.bind_eq_bind, Option.bind_eq_some, Option.pure_def,
    Option.some.injEq] at h
  obtain ⟨⟨di, m⟩, h1, ap, h2, feff, h3, hres⟩ := h
  exact ⟨di, m, ap, feff, h1, h2, h3, hres.symm⟩

theorem motion_exposure_sec_inv (p : Params) (mot : MotionExposureSec)
    (h : motion_exposure_sec p = some mot) :
    ∃ fp spx mem mef me1 rcm,
      frame_period_us p = some fp ∧ object_speed_px_s p = some spx ∧
      max_exposure_us_motion p = some mem ∧ max_exposure_us_frame p = some mef ∧
      max_exposure_us_motion_1px p = some me1 ∧ recommended_exposure_us p = some rcm ∧
      mot = ⟨object_speed_mm_s p, spx, fp, mem, mef, rcm⟩ := by
  simp only [motion_exposure_sec, Option.bind_eq_bind, Option.bind_eq_some, Option.pure_def,
    Option.some.injEq] at h
  obtain ⟨fp, h1, spx, h2, mem, h3, mef, h4, me1, h5, rcm, h6, hres⟩ := h
  exact ⟨fp, spx, mem, mef, me1, rcm, h1, h2, h3, h4, h5, h6, hres.symm⟩

theorem diffraction_mtf_sec_inv (p : Params) (dms : DiffractionMtfSec)
    (h : diffraction_mtf_sec p = some dms) :
    ∃ dm mt mtr reg,
      diff p = some dm ∧ lens_mtf50_lp_per_mm p = some mt ∧
      mtf50_vs_nyquist_ratio' p = some mtr ∧ sampling_regime p = some reg ∧
      dms = ⟨dm.wavelength_um, dm.airy_disk_diameter_um, dm.airy_disk_diameter_pixels,
        dm.diffraction_cutoff_lp_per_mm, dm.nyquist_over_diffraction_cutoff, mt, mtr, reg⟩ := by
  simp only [diffraction_mtf_sec, Option.bind_eq_bind, Option.bind_eq_some, Option.pure_def,
    Option.some.injEq] at h
  obtain ⟨dm, h1, mt, h2, mtr, h3, reg, h4, hres⟩ := h
  exact ⟨dm, mt, mtr, reg, h1, h2, h3, h4, hres.symm⟩

theorem coverage_distortion_sec_inv (sq : ℚ → ℚ) (p : Params) (cov : CoverageDistortionSec)
    (h : coverage_distortion_sec sq p = some cov) :
    ∃ cr cas ed ee,
      coverage_ratio_actual_vs_design sq p = some cr ∧
      fov_area_scale_vs_design sq p = some cas ∧
      effective_distortion_percent_at_actual_edge sq p = some ed ∧
      edge_position_error_mm_effective sq p = some ee ∧
      cov = ⟨coverage_ok sq p, coverage_margin_mm sq p, cr, cr, cr, cas, ed, ee⟩ := by
  simp only [coverage_distortion_sec, Option.bind_eq_bind, Option.bind_eq_some, Option.pure_def,
    Option.some.injEq] at h
  obtain ⟨cr, h1, cas, h2, ed, h3, ee, h4, hres⟩ := h
  exact ⟨cr, cas, ed, ee, h1, h2, h3, h4, hres.symm⟩

theorem flags_sec_inv (sq lg : ℚ → ℚ) (p : Params) (fl : FlagsSec)
    (h : flags_sec sq lg p = some fl) :
    ∃ dd elf pv,
      diffraction_dominant p = some dd ∧ exposure_limited_by_frame p = some elf ∧
      potential_vignetting sq lg p = some pv ∧ fl = ⟨dd, elf, pv⟩ := by
  simp only [flags_sec, Option.bind_eq_bind, Option.bind_eq_some, Option.pure_def,
    Option.some.injEq] at h
  obtain ⟨dd, h1, elf, h2, pv, h3, hres⟩ := h
  exact ⟨dd, elf, pv, h1, h2, h3, hres.symm⟩

theorem illum_inv (sq lg : ℚ → ℚ) (p : Params) (il : IlluminationSec)
    (h : illum sq lg p = some il) :
    ∃ d, di_mm p = some d ∧
      _illumination_metrics sq lg (orZero (sensor_diag_mm sq p)) d
        (lens_relative_illumination p) = some il := by
  simp only [illum, Option.bind_eq_bind, Option.bind_eq_some] at h
  obtain ⟨d, h1, h2⟩ := h
  exact ⟨d, h1, h2⟩

-- ==================================================================
-- C4: the sampling-regime classification
-- ==================================================================

/-- C4: the sampling-regime verdict is a deterministic function of only the
Nyquist-over-diffraction-cutoff ratio and the lens-MTF50-versus-sensor-Nyquist
comparison, evaluated first match wins in the fixed order (1) ratio > 1.1 →
"optics-limited (diffraction)" — regardless of the MTF50 comparison —,
(2) MTF50 < 0.9 × Nyquist → "optics-limited (aberrations)", (3) ratio < 0.9 →
"sensor-limited", (4) otherwise "balanced"; and the regime reported by
`calculate` is that function of the reported ratio, the reported MTF50 and
the diffraction-stage Nyquist figure. -/
theorem C4_sampling_regime :
    (∀ r mt ny : EF, pyGt r (fin (11/10)) = true → samplingRegime r mt ny = regimeDiffr) ∧
    (∀ r mt ny : EF, pyGt r (fin (11/10)) = false →
      pyLt mt (pyMul (fin (9/10)) ny) = true → samplingRegime r mt ny = regimeAberr) ∧
    (∀ r mt ny : EF, pyGt r (fin (11/10)) = false →
      pyLt mt (pyMul (fin (9/10)) ny) = false → pyLt r (fin (9/10)) = true →
      samplingRegime r mt ny = regimeSensor) ∧
    (∀ r mt ny : EF, pyGt r (fin (11/10)) = false →
      pyLt mt (pyMul (fin (9/10)) ny) = false → pyLt r (fin (9/10)) = false →
      samplingRegime r mt ny = regimeBalanced) ∧
    (∀ (sq lg : ℚ → ℚ) (p : Params) (res : CalcResult), calculate sq lg p = some res →
      ∃ ny, res.diffraction_mtf.sampling_regime =
        samplingRegime res.diffraction_mtf.nyquist_over_diffraction_cutoff
          res.diffraction_mtf.lens_mtf50_lp_per_mm ny) := by
  refine ⟨?_, ?_, ?_, ?_, ?_⟩
  · intro r mt ny h1; simp [samplingRegime, h1]
  · intro r mt ny h1 h2; simp [samplingRegime, h1, h2]
  · intro r mt ny h1 h2 h3; simp [samplingRegime, h1, h2, h3]
  · intro r mt ny h1 h2 h3; simp [samplingRegime, h1, h2, h3]
  · intro sq lg p res h
    obtain ⟨sen, lgs, fov, mot, dofv, dms, cov, il, app, fl,
      _, _, _, _, _, h6, _, _, _, _, hres⟩ := calculate_inv sq lg p res h
    obtain ⟨dm, mt, mtr, reg, hdm, hmt, _, hreg, hdms⟩ := diffraction_mtf_sec_inv p dms h6
    subst hres hdms
    refine ⟨dm.sensor_nyquist_lp_per_mm, ?_⟩
    simp only [sampling_regime, Option.bind_eq_bind, hdm, hmt, Option.some_bind,
      Option.pure_def, Option.some.injEq] at hreg
    exact hreg.symm

/-- C4 (witness): rule (1) applied at a concrete ratio above 1.1, with an
MTF50 far below the Nyquist comparison point, showing the first rule wins. -/
theorem C4_witness :
    pyGt (fin 2) (fin (11/10)) = true ∧
    samplingRegime (fin 2) (fin 0) (fin 1000) = regimeDiffr :=
  ⟨by decide, C4_sampling_regime.1 (fin 2) (fin 0) (fin 1000) (by decide)⟩

-- ==================================================================
-- C9: magnification is reported only as a percentage
-- ==================================================================

/-- C9: the lens_geometry section reports magnification only through
`magnification_percent`, which is `100 ×` the thin-lens magnification when
that magnification is finite and `+∞` otherwise; the section consists
exactly of aperture diameter, effective f-number, working distance, image
distance and that percentage — the unscaled magnification is not a field of
the result record. -/
theorem C9_magnification_percent :
    ∀ (sq lg : ℚ → ℚ) (p : Params) (res : CalcResult), calculate sq lg p = some res →
      ∃ di m, _lens_geometry (f_mm p) (working_distance_mm p) = some (di, m) ∧
        res.lens_geometry.image_distance_mm = di ∧
        res.lens_geometry.working_distance_mm = working_distance_mm p ∧
        res.lens_geometry.magnification_percent =
          (if isFinite m then pyMul m (fin 100) else EF.inf) ∧
        ∃ ap feff, res.lens_geometry =
          ⟨ap, feff, working_distance_mm p, di,
            if isFinite m then pyMul m (fin 100) else EF.inf⟩ := by
  intro sq lg p res h
  obtain ⟨sen, lgs, fov, mot, dofv, dms, cov, il, app, fl,
    _, h2, _, _, _, _, _, _, _, _, hres⟩ := calculate_inv sq lg p res h
  obtain ⟨di, m, ap, feff, hpair, hap, heff, hlgs⟩ := lens_geometry_sec_inv p lgs h2
  subst hres hlgs
  exact ⟨di, m, hpair, rfl, rfl, rfl, ap, feff, rfl⟩

/-- C9 (witness): the theorem applied at the spec's scenario-1 inputs. -/
theorem C9_witness :
    ∃ res, calculate id id pC9 = some res ∧
      ∃ di m, _lens_geometry (f_mm pC9) (working_distance_mm pC9) = some (di, m) ∧
        res.lens_geometry.image_distance_mm = di ∧
        res.lens_geometry.working_distance_mm = working_distance_mm pC9 ∧
        res.lens_geometry.magnification_percent =
          (if isFinite m then pyMul m (fin 100) else EF.inf) ∧
        ∃ ap feff, res.lens_geometry =
          ⟨ap, feff, working_distance_mm pC9, di,
            if isFinite m then pyMul m (fin 100) else EF.inf⟩ := by
  have hs : (calculate id id pC9).isSome = true := by decide
  exact ⟨(calculate id id pC9).get hs, (Option.some_get hs).symm,
    C9_magnification_percent id id pC9 _ (Option.some_get hs).symm⟩

-- ==================================================================
-- C10: non-positive f-number
-- ==================================================================

/-- when the pixel-size argument passed to `_diffraction_sampling_metrics`
is the guarded value of line 184, it is positive. -/
theorem psm_guard_pos (psm : EF) :
    pyGt (if pyGt psm (fin 0) = true then psm else fin (1/1000000)) (fin 0) = true := by
  cases hgt : pyGt psm (fin 0) <;> simp [hgt]
  decide

theorem pyMul_ne_finzero_of_pos (a : EF) (b : ℚ) (ha : pyGt a (fin 0) = true) (hb : 0 < b) :
    pyMul a (fin b) ≠ fin 0 := by
  cases a with
  | fin q =>
    have hq : 0 < q := by simpa [pyGt, pyLt] using ha
    simp only [pyMul, ne_eq, fin.injEq]
    positivity
  | inf => simp [pyMul, hb, ne_of_gt hb]
  | ninf => simp [pyMul, hb, ne_of_gt hb]
  | nan => simp [pyMul]

theorem pyMul_finpos_ne_finzero (a : ℚ) (b : EF) (ha : 0 < a) (hb : pyGt b (fin 0) = true) :
    pyMul (fin a) b ≠ fin 0 := by
  cases b with
  | fin q =>
    have hq : 0 < q := by simpa [pyGt, pyLt] using hb
    simp only [pyMul, ne_eq, fin.injEq]
    positivity
  | inf => simp [pyMul, ha, ne_of_gt ha]
  | ninf => simp [pyMul, ha, ne_of_gt ha]
  | nan => simp [pyMul]

/-- `_diffraction_sampling_metrics` at an infinite effective f-number and a
positive pixel size: the cutoff evaluates to 0 (not `+∞`) because
`1/(λ·inf) = 0`, and the ratio guard then yields `+∞`. -/
theorem diffr_metrics_at_inf (psm : EF) (h : pyGt psm (fin 0) = true) :
    ∃ dm, _diffraction_sampling_metrics psm EF.inf = some dm ∧
      dm.diffraction_cutoff_lp_per_mm = fin 0 ∧
      dm.nyquist_over_diffraction_cutoff = EF.inf := by
  have e_lam : pyDiv (fin (11/20)) (fin 1000) = some (fin (11/20000)) := by decide
  have e_airy : pyMul (pyMul (fin (61/25)) (fin (11/20))) EF.inf = EF.inf := by decide
  have e_lmul : pyMul (fin (11/20000)) EF.inf = EF.inf := by decide
  have e_cut : pyDiv (fin 1) EF.inf = some (fin 0) := by decide
  have h_px_some : (pyDiv EF.inf (pyMul psm (fin 1000))).isSome = true :=
    pyDiv_isSome _ _ (pyMul_ne_finzero_of_pos psm 1000 h (by norm_num))
  have h_ny_some : (pyDiv (fin 1) (pyMul (fin 2) psm)).isSome = true :=
    pyDiv_isSome _ _ (pyMul_finpos_ne_finzero 2 psm (by norm_num) h)
  obtain ⟨apx, hapx⟩ := Option.isSome_iff_exists.mp h_px_some
  obtain ⟨ny, hny⟩ := Option.isSome_iff_exists.mp h_ny_some
  refine ⟨⟨fin (11/20), EF.inf, apx, fin 0, EF.inf, ny⟩, ?_, rfl, rfl⟩
  simp only [_diffraction_sampling_metrics, Option.bind_eq_bind, e_lam, Option.some_bind,
    e_airy, h, if_true, hapx, hny, e_lmul, e_cut]
  norm_num [pyGt, pyLt]

/-- with a non-positive f-number the effective f-number is `+∞`. -/
theorem effective_f_number_nonpos (p : Params) (m : EF) (hm : m_val p = some m)
    (hgt : pyGt (f_stop p) (fin 0) = false) :
    effective_f_number p = some EF.inf := by
  simp [effective_f_number, Option.bind_eq_bind, hm, hgt]

theorem diff_fstop_nonpos (p : Params) (hgt : pyGt (f_stop p) (fin 0) = false)
    (m : EF) (hm : m_val p = some m) (psm : EF) (hpsm : pixel_size_mm_min p = some psm) :
    ∃ dm, diff p = some dm ∧
      dm.diffraction_cutoff_lp_per_mm = fin 0 ∧
      dm.nyquist_over_diffraction_cutoff = EF.inf := by
  have heff := effective_f_number_nonpos p m hm hgt
  have hmax : pyMax EF.inf (fin (1/1000000000)) = EF.inf := by decide
  obtain ⟨dm, hdm, hc, hr⟩ :=
    diffr_metrics_at_inf (if pyGt psm (fin 0) = true then psm else fin (1/1000000))
      (psm_guard_pos psm)
  refine ⟨dm, ?_, hc, hr⟩
  simpa [diff, Option.bind_eq_bind, hpsm, heff, hmax] using hdm

/-- C10 (amended): whenever `calculate` returns a record at all and the
f-number input is absent or not positive, the effective f-number is `+∞`,
the diffraction cutoff is 0 (not `+∞`), the Nyquist-over-cutoff ratio is
`+∞`, the sampling regime is "optics-limited (diffraction)" and the
diffraction_dominant flag is true.  (As stated the claim is false: with the
f-number absent — or exactly zero — and default inputs, `calculate` raises
`ZeroDivisionError` in the depth-of-field stage before the diffraction stage
runs, so no record carrying those values is produced.) -/
theorem C10_fnumber_nonpositive :
    ∀ (sq lg : ℚ → ℚ) (p : Params) (res : CalcResult), calculate sq lg p = some res →
      pyGt (f_stop p) (fin 0) = false →
      res.lens_geometry.effective_f_number = EF.inf ∧
      res.diffraction_mtf.diffraction_cutoff_lp_per_mm = fin 0 ∧
      res.diffraction_mtf.nyquist_over_diffraction_cutoff = EF.inf ∧
      res.diffraction_mtf.sampling_regime = regimeDiffr ∧
      res.flags.diffraction_dominant = true := by
  intro sq lg p res h hgt
  obtain ⟨sen, lgs, fov, mot, dofv, dms, cov, il, app, fl,
    _, h2, _, _, _, h6, _, _, _, h10, hres⟩ := calculate_inv sq lg p res h
  obtain ⟨di, m, ap, feff, hpair, hap, heff, hlgs⟩ := lens_geometry_sec_inv p lgs h2
  obtain ⟨dm, mt, mtr, reg, hdm, hmt, _, hreg, hdms⟩ := diffraction_mtf_sec_inv p dms h6
  obtain ⟨dd, elf, pv, hdd, _, _, hfl⟩ := flags_sec_inv sq lg p fl h10
  have hm : m_val p = some m := by simp [m_val, hpair]
  -- the bound effective f-number is +∞
  have heff' : feff = EF.inf := by
    have := (effective_f_number_nonpos p m hm hgt).symm.trans heff
    exact (Option.some.inj this).symm
  -- the diffraction dict has cutoff 0 and ratio +∞
  obtain ⟨psm, hpsm, _⟩ : ∃ psm, pixel_size_mm_min p = some psm ∧ True := by
    have hdm' := hdm
    simp only [diff, Option.bind_eq_bind, Option.bind_eq_some] at hdm'
    obtain ⟨psm, hpsm, _⟩ := hdm'
    exact ⟨psm, hpsm, trivial⟩
  obtain ⟨dm', hdm', hc, hr⟩ := diff_fstop_nonpos p hgt m hm psm hpsm
  have hdmeq : dm = dm' := Option.some.inj (hdm.symm.trans hdm')
  subst hdmeq
  -- the regime reported is the first rule's verdict
  have hreg' : reg = regimeDiffr := by
    simp only [sampling_regime, Option.bind_eq_bind, hdm, hmt, Option.some_bind,
      Option.pure_def, Option.some.injEq] at hreg
    rw [← hreg, hr, samplingRegime]
    simp [pyGt, pyLt]
  have hdd' : dd = true := by
    simp only [diffraction_dominant, Option.bind_eq_bind, hdm, Option.some_bind,
      Option.pure_def, Option.some.injEq] at hdd
    rw [← hdd, hr]
    simp [pyGt, pyLt]
  subst hres hlgs hdms hfl hreg' hdd' heff'
  exact ⟨rfl, hc, hr, rfl, rfl⟩

/-- C10 (counterexample): with `lens_fstop` supplied as 0 (equally: absent)
and everything else defaulted, `calculate` raises in the depth-of-field
stage, so no result record with the claimed diffraction values exists. -/
theorem C10_counterexample : ¬ C10_claimed := by
  intro h
  obtain ⟨res, hres, _⟩ := h id id pC10z (by decide)
  rw [show calculate id id pC10z = none from by decide] at hres
  cases hres

/-- C10 (witness): the amended theorem applied at a negative supplied
f-number, where `calculate` does complete. -/
theorem C10_witness :
    ∃ res, calculate id id pC10 = some res ∧
      res.lens_geometry.effective_f_number = EF.inf ∧
      res.diffraction_mtf.diffraction_cutoff_lp_per_mm = fin 0 ∧
      res.diffraction_mtf.nyquist_over_diffraction_cutoff = EF.inf ∧
      res.diffraction_mtf.sampling_regime = regimeDiffr ∧
      res.flags.diffraction_dominant = true := by
  have hs : (calculate id id pC10).isSome = true := by decide
  exact ⟨(calculate id id pC10).get hs, (Option.some_get hs).symm,
    C10_fnumber_nonpositive id id pC10 _ (Option.some_get hs).symm (by decide)⟩

-- ==================================================================
-- C6: coverage outputs when the lens image-circle diagonal is missing
-- ==================================================================

/-- C6 (amended): when the computed lens diagonal is zero — the key absent,
null, unparseable, or an explicit 0 — while the sensor diagonal is supplied
positive, coverage_ok is false, the coverage margin and ratio are NaN, and
potential_vignetting is true irrespective of the illumination ratio.  (As
stated the claim also covered a supplied *negative* lens diagonal, but a
negative value is truthy, so the margin is then the finite half-difference,
not NaN.) -/
theorem C6_coverage_missing_lens_diag :
    ∀ (sq lg : ℚ → ℚ) (p : Params) (res : CalcResult), calculate sq lg p = some res →
      lens_diag_mm p = fin 0 →
      (∃ sd, sensor_diag_mm0 p = some sd ∧ pyGt sd (fin 0) = true) →
      res.coverage_distortion.coverage_ok = false ∧
      res.coverage_distortion.coverage_margin_mm = EF.nan ∧
      res.coverage_distortion.coverage_ratio_actual_vs_design = EF.nan ∧
      res.flags.potential_vignetting = true := by
  intro sq lg p res h hld _
  obtain ⟨sen, lgs, fov, mot, dofv, dms, cov, il, app, fl,
    _, _, _, _, _, _, h7, h8, _, h10, hres⟩ := calculate_inv sq lg p res h
  obtain ⟨cr, cas, ed, ee, hcr, _, _, _, hcov⟩ := coverage_distortion_sec_inv sq p cov h7
  obtain ⟨dd, elf, pv, _, _, hpv, hfl⟩ := flags_sec_inv sq lg p fl h10
  have hok : coverage_ok sq p = false := by
    simp [coverage_ok, hld, pyTruthy]
  have hmargin : coverage_margin_mm sq p = EF.nan := by
    simp [coverage_margin_mm, hld, pyTruthy]
  have hnan : coverage_ratio_actual_vs_design sq p = some EF.nan := by
    rw [coverage_ratio_actual_vs_design, hld]
    simp [show pyGt (fin 0) (fin 0) = false from by decide]
  have hcr' : cr = EF.nan := Option.some.inj (hcr.symm.trans hnan)
  have hpv' : pv = true := by
    simp only [potential_vignetting, Option.bind_eq_bind, h8, Option.some_bind,
      Option.pure_def, Option.some.injEq, hok] at hpv
    simp at hpv
    exact hpv
  subst hres hcov hfl hcr' hpv'
  exact ⟨hok, hmargin, rfl, rfl⟩

/-- C6 (counterexample): with a supplied lens diagonal of −3 mm (not
positive) and a positive sensor diagonal of 10 mm, the reported coverage
margin is the finite value −6.5 mm, not the NaN the claim requires. -/
theorem C6_counterexample :
    pyGt (lens_diag_mm pC6) (fin 0) = false ∧
    sensor_diag_mm0 pC6 = some (fin 10) ∧ pyGt (fin 10) (fin 0) = true ∧
    (calculate id id pC6).map (fun r => r.coverage_distortion.coverage_margin_mm)
      = some (fin (-13/2)) ∧
    (fin (-13/2) : EF) ≠ EF.nan := by
  decide

/-- C6 (witness): the amended theorem applied with the lens diagonal absent
and a sensor diagonal of 10 mm. -/
theorem C6_witness :
    ∃ res, calculate id id pC6w = some res ∧
      res.coverage_distortion.coverage_ok = false ∧
      res.coverage_distortion.coverage_margin_mm = EF.nan ∧
      res.coverage_distortion.coverage_ratio_actual_vs_design = EF.nan ∧
      res.flags.potential_vignetting = true := by
  have hs : (calculate id id pC6w).isSome = true := by decide
  exact ⟨(calculate id id pC6w).get hs, (Option.some_get hs).symm,
    C6_coverage_missing_lens_diag id id pC6w _ (Option.some_get hs).symm (by decide)
      ⟨fin 10, by decide, by decide⟩⟩

-- ==================================================================
-- C3: the recommended exposure
-- ==================================================================

theorem pyGt_zero_ne_zero (s : EF) (h : pyGt s (fin 0) = true) : s ≠ fin 0 := by
  cases s with
  | fin a =>
    have : 0 < a := by simpa [pyGt, pyLt] using h
    simp only [ne_eq, fin.injEq]
    exact ne_of_gt this
  | inf => simp
  | ninf => simp_all [pyGt, pyLt]
  | nan => simp_all [pyGt, pyLt]

theorem max1px_eq (p : Params) (spx : EF) (h : object_speed_px_s p = some spx) :
    max_exposure_us_motion_1px p = some (onePixelBound spx) := by
  unfold max_exposure_us_motion_1px onePixelBound
  simp only [Option.bind_eq_bind, h, Option.some_bind]
  cases hgt : pyGt spx (fin 0)
  · simp [hgt]
  · obtain ⟨x, hx⟩ :=
      Option.isSome_iff_exists.mp (pyDiv_isSome (fin 1) spx (pyGt_zero_ne_zero spx hgt))
    simp [hgt, hx]

theorem recommended_eq (p : Params) (spx fp : EF) (hs : object_speed_px_s p = some spx)
    (hf : frame_period_us p = some fp) :
    recommended_exposure_us p = some (pyMin (onePixelBound spx) fp) := by
  unfold recommended_exposure_us
  simp [Option.bind_eq_bind, max1px_eq p spx hs, max_exposure_us_frame, hf]

theorem onePixelBound_ne_nan (s : EF) : onePixelBound s ≠ EF.nan := by
  cases s with
  | fin a =>
    unfold onePixelBound
    cases hgt : pyGt (fin a) (fin 0)
    · simp [hgt]
    · have ha : ¬ a = 0 := by
        have : 0 < a := by simpa [pyGt, pyLt] using hgt
        exact ne_of_gt this
      simp [hgt, pyDiv, ha, pyMul]
  | inf => decide
  | ninf => decide
  | nan => decide

theorem frame_period_ne_nan (p : Params) (fp : EF) (h : frame_period_us p = some fp) :
    fp ≠ EF.nan := by
  unfold frame_period_us at h
  cases hgt : pyGt (sensor_fps p) (fin 0)
  · rw [hgt] at h
    simp only [Bool.false_eq_true, if_false, Option.some.injEq] at h
    subst h
    simp
  · rw [hgt] at h
    simp only [if_true] at h
    cases hv : sensor_fps p with
    | fin a =>
      rw [hv] at h hgt
      have ha : ¬ a = 0 := by
        have : 0 < a := by simpa [pyGt, pyLt] using hgt
        exact ne_of_gt this
      simp only [pyDiv, ha, if_false] at h
      cases h
      simp
    | inf =>
      rw [hv] at h
      simp only [pyDiv] at h
      cases h
      simp
    | ninf => rw [hv] at hgt; simp [pyGt, pyLt] at hgt
    | nan => rw [hv] at hgt; simp [pyGt, pyLt] at hgt

theorem pyLe_refl' (a : EF) (h : a ≠ EF.nan) : pyLe a a = true := by
  cases a <;> simp_all [pyLe]

theorem pyLe_of_pyLt (a b : EF) (h : pyLt a b = true) : pyLe a b = true := by
  cases a <;> cases b <;> simp_all [pyLt, pyLe] <;> linarith

theorem pyLe_of_not_pyLt (a b : EF) (ha : a ≠ EF.nan) (hb : b ≠ EF.nan)
    (h : pyLt b a = false) : pyLe a b = true := by
  cases a <;> cases b <;> simp_all [pyLt, pyLe] <;> linarith

theorem pyMin_le_left (a b : EF) (ha : a ≠ EF.nan) : pyLe (pyMin a b) a = true := by
  unfold pyMin
  cases hlt : pyLt b a
  · simp [pyLe_refl' a ha]
  · simp [pyLe_of_pyLt b a hlt]

theorem pyMin_le_right (a b : EF) (ha : a ≠ EF.nan) (hb : b ≠ EF.nan) :
    pyLe (pyMin a b) b = true := by
  unfold pyMin
  cases hlt : pyLt b a
  · simp [pyLe_of_not_pyLt a b ha hb hlt]
  · simp [pyLe_refl' b hb]

theorem as_float_congr (p p' : Params) (keys : List String) (d : Option EF)
    (h : ∀ k ∈ keys, p' k = p k) : as_float p' keys d = as_float p keys d := by
  induction keys with
  | nil => rfl
  | cons k ks ih =>
    unfold as_float
    rw [h k (List.mem_cons_self k ks)]
    cases hc : (p k).bind PyVal.toFloat
    · exact ih (fun k' hk' => h k' (List.mem_cons_of_mem _ hk'))
    · rfl

/-- everything the recommended-exposure computation reads is independent of
the allowed-blur key. -/
theorem recommended_congr (p p' : Params) (hag : ∀ k, k ≠ kBlur → p' k = p k) :
    recommended_exposure_us p' = recommended_exposure_us p ∧
    object_speed_px_s p' = object_speed_px_s p ∧
    frame_period_us p' = frame_period_us p := by
  have hone : ∀ key, key ≠ kBlur → ∀ d, as_float p' [key] d = as_float p [key] d := by
    intro key hk d
    refine as_float_congr p p' [key] d ?_
    intro k hkmem
    rw [List.mem_singleton] at hkmem
    subst hkmem
    exact hag _ hk
  have hsw : sensor_w_mm p' = sensor_w_mm p := by
    unfold sensor_w_mm; rw [hone kSensorW (by decide)]
  have hsh : sensor_h_mm p' = sensor_h_mm p := by
    unfold sensor_h_mm; rw [hone kSensorH (by decide)]
  have hpw : px_w_um p' = px_w_um p := by
    unfold px_w_um; rw [hone kPxW (by decide)]
  have hph : px_h_um p' = px_h_um p := by
    unfold px_h_um; rw [hone kPxH (by decide)]
  have hpp : pixels_pair p' = pixels_pair p := by
    unfold pixels_pair; rw [hsw, hsh, hpw, hph]
  have hf : f_mm p' = f_mm p := by
    unfold f_mm; rw [hone kFocal (by decide)]
  have hwd : working_distance_mm p' = working_distance_mm p := by
    unfold working_distance_mm; rw [hone kWd (by decide)]
  have hlp : lens_pair p' = lens_pair p := by
    unfold lens_pair; rw [hf, hwd]
  have hm : m_val p' = m_val p := by
    unfold m_val; rw [hlp]
  have hfw : fov_w_mm p' = fov_w_mm p := by
    unfold fov_w_mm; rw [hm, hsw]
  have hfh : fov_h_mm p' = fov_h_mm p := by
    unfold fov_h_mm; rw [hm, hsh]
  have hppx : pixels_per_mm_x p' = pixels_per_mm_x p := by
    unfold pixels_per_mm_x; rw [hpp, hfw]
  have hppy : pixels_per_mm_y p' = pixels_per_mm_y p := by
    unfold pixels_per_mm_y; rw [hpp, hfh]
  have hax : motion_axis p' = motion_axis p := by
    unfold motion_axis; rw [hag kAxis (by decide)]
  have haxis : px_per_mm_axis p' = px_per_mm_axis p := by
    unfold px_per_mm_axis; rw [hax, hppx, hppy]
  have hsp : object_speed_mm_s p' = object_speed_mm_s p := by
    unfold object_speed_mm_s; rw [hone kSpeed (by decide)]
  have hspx : object_speed_px_s p' = object_speed_px_s p := by
    unfold object_speed_px_s; rw [haxis, hsp]
  have hfps : sensor_fps p' = sensor_fps p := by
    unfold sensor_fps; rw [hone kFps (by decide)]
  have hfp : frame_period_us p' = frame_period_us p := by
    unfold frame_period_us; rw [hfps]
  have h1px : max_exposure_us_motion_1px p' = max_exposure_us_motion_1px p := by
    unfold max_exposure_us_motion_1px; rw [hspx]
  have hmef : max_exposure_us_frame p' = max_exposure_us_frame p := by
    unfold max_exposure_us_frame; rw [hfp]
  refine ⟨?_, hspx, hfp⟩
  unfold recommended_exposure_us
  rw [h1px, hmef]

/-- C3: the recommended exposure equals the minimum of the fixed
1-pixel-blur bound (a function of the reported object speed in px/s) and
the frame-period bound; it is therefore `≤ max_exposure_us_frame` and `≤`
the 1-pixel bound always; and it is independent of the caller-supplied
allowed-blur value, which only enters the separately reported
`max_exposure_us_motion_blur_for_allowed_blur_px`. -/
theorem C3_recommended_exposure :
    ∀ (sq lg : ℚ → ℚ) (p : Params) (res : CalcResult), calculate sq lg p = some res →
      res.motion_exposure.recommended_exposure_us =
        pyMin (onePixelBound res.motion_exposure.object_speed_px_s)
          res.motion_exposure.frame_period_us ∧
      res.motion_exposure.max_exposure_us_frame = res.motion_exposure.frame_period_us ∧
      pyLe res.motion_exposure.recommended_exposure_us
        res.motion_exposure.max_exposure_us_frame = true ∧
      pyLe res.motion_exposure.recommended_exposure_us
        (onePixelBound res.motion_exposure.object_speed_px_s) = true ∧
      (∀ (v : Option PyVal) (res' : CalcResult),
        calculate sq lg (fun k => if k = kBlur then v else p k) = some res' →
        res'.motion_exposure.recommended_exposure_us =
          res.motion_exposure.recommended_exposure_us) := by
  intro sq lg p res h
  obtain ⟨sen, lgs, fov, mot, dofv, dms, cov, il, app, fl,
    _, _, _, h4, _, _, _, _, _, _, hres⟩ := calculate_inv sq lg p res h
  obtain ⟨fp, spx, mem, mef, me1, rcm, h1, h2, h3, h4', h5, h6, hmot⟩ :=
    motion_exposure_sec_inv p mot h4
  have hmef : mef = fp := by
    unfold max_exposure_us_frame at h4'
    exact Option.some.inj (h4'.symm.trans h1)
  have hrcm : rcm = pyMin (onePixelBound spx) fp :=
    Option.some.inj (h6.symm.trans (recommended_eq p spx fp h2 h1))
  subst hres hmot
  refine ⟨hrcm, hmef, ?_, ?_, ?_⟩
  · show pyLe rcm mef = true
    rw [hrcm, hmef]
    exact pyMin_le_right _ _ (onePixelBound_ne_nan spx) (frame_period_ne_nan p fp h1)
  · show pyLe rcm (onePixelBound spx) = true
    rw [hrcm]
    exact pyMin_le_left _ _ (onePixelBound_ne_nan spx)
  · intro v res' h'
    obtain ⟨sen', lgs', fov', mot', dofv', dms', cov', il', app', fl',
      _, _, _, h4'', _, _, _, _, _, _, hres'⟩ :=
      calculate_inv sq lg (fun k => if k = kBlur then v else p k) res' h'
    obtain ⟨fp', spx', mem', mef', me1', rcm', h1', h2', _, _, _, h6', hmot'⟩ :=
      motion_exposure_sec_inv _ mot' h4''
    have hag : ∀ k, k ≠ kBlur → (fun k => if k = kBlur then v else p k) k = p k := by
      intro k hk
      simp [hk]
    obtain ⟨hcon, _, _⟩ := recommended_congr p _ hag
    have hrcm' : rcm' = pyMin (onePixelBound spx) fp :=
      Option.some.inj (h6'.symm.trans (hcon.trans (recommended_eq p spx fp h2 h1)))
    subst hres' hmot'
    show rcm' = rcm
    rw [hrcm', hrcm]

/-- C3 (witness): the theorem applied at a concrete run (speed 1000 px/s,
1-pixel bound 1000 µs, frame period 10000 µs). -/
theorem C3_witness :
    ∃ res, calculate id id pC3 = some res ∧
      (res.motion_exposure.recommended_exposure_us =
          pyMin (onePixelBound res.motion_exposure.object_speed_px_s)
            res.motion_exposure.frame_period_us ∧
        res.motion_exposure.max_exposure_us_frame = res.motion_exposure.frame_period_us ∧
        pyLe res.motion_exposure.recommended_exposure_us
          res.motion_exposure.max_exposure_us_frame = true ∧
        pyLe res.motion_exposure.recommended_exposure_us
          (onePixelBound res.motion_exposure.object_speed_px_s) = true ∧
        ∀ (v : Option PyVal) (res' : CalcResult),
          calculate id id (fun k => if k = kBlur then v else pC3 k) = some res' →
          res'.motion_exposure.recommended_exposure_us =
            res.motion_exposure.recommended_exposure_us) := by
  have hs : (calculate id id pC3).isSome = true := by decide
  exact ⟨(calculate id id pC3).get hs, (Option.some_get hs).symm,
    C3_recommended_exposure id id pC3 _ (Option.some_get hs).symm⟩

-- ==================================================================
-- C8: the illumination report
-- ==================================================================

/-- inversion of the common tail of `_illumination_metrics` (the
percent/loss/stops computation after the corner ratio is fixed). -/
theorem stage_tail_inv (lg : ℚ → ℚ) (corner : EF) (out : IlluminationSec)
    (h : (if pyGt corner (fin 0) = true then
            (pyDiv (fin 1) (pyMax corner (fin (1/1000000000)))).bind fun q =>
              (pyLog2 lg q).bind fun st =>
                some ⟨fin 100, pyMul (fin 100) corner, corner,
                  pyMax (fin 0) (pySub (fin 100) (pyMul (fin 100) corner)), st⟩
          else
            some ⟨fin 100, pyMul (fin 100) corner, corner,
              pyMax (fin 0) (pySub (fin 100) (pyMul (fin 100) corner)), EF.inf⟩)
          = some out) :
    ∃ stops,
      (pyGt corner (fin 0) = true →
        (pyDiv (fin 1) (pyMax corner (fin (1/1000000000)))).bind (pyLog2 lg) = some stops) ∧
      (pyGt corner (fin 0) = false → stops = EF.inf) ∧
      out = ⟨fin 100, pyMul (fin 100) corner, corner,
        pyMax (fin 0) (pySub (fin 100) (pyMul (fin 100) corner)), stops⟩ := by
  cases hgt : pyGt corner (fin 0) with
  | false =>
    rw [hgt] at h
    simp only [Bool.false_eq_true, if_false, Option.some.injEq] at h
    refine ⟨EF.inf, ?_, fun _ => rfl, h.symm⟩
    intro hc
    simp [hgt] at hc
  | true =>
    rw [hgt] at h
    simp only [if_true, Option.bind_eq_some, Option.some.injEq] at h
    obtain ⟨q, hq, st, hst, hout⟩ := h
    refine ⟨st, ?_, ?_, hout.symm⟩
    · intro _
      rw [hq]
      simp [hst]
    · intro hc
      simp [hgt] at hc

/-- inversion for `_illumination_metrics`: a successful run is determined by
the corner ratio its branch produced and by the stops value, and the corner
ratio arises from exactly one of the three source branches (supplied figure,
cos⁴ falloff, or the 1.0 default). -/
theorem illum_metrics_inv (sq lg : ℚ → ℚ) (diag di : EF) (rel : Option EF)
    (out : IlluminationSec) (h : _illumination_metrics sq lg diag di rel = some out) :
    ∃ corner stops,
      (pyGt corner (fin 0) = true →
        (pyDiv (fin 1) (pyMax corner (fin (1/1000000000)))).bind (pyLog2 lg) = some stops) ∧
      (pyGt corner (fin 0) = false → stops = EF.inf) ∧
      out = ⟨fin 100, pyMul (fin 100) corner, corner,
        pyMax (fin 0) (pySub (fin 100) (pyMul (fin 100) corner)), stops⟩ ∧
      ((∃ v cr, rel = some v ∧
          (if pyGt v (fin (3/2)) = true then pyDiv v (fin 100) else some v) = some cr ∧
          corner = pyMax (pyMin cr (fin 1)) (fin 0)) ∨
        (rel = none ∧ (isFinite di && pyGt di (fin 0)) = false ∧ corner = fin 1) ∨
        (rel = none ∧ (isFinite di && pyGt di (fin 0)) = true ∧
          ∃ t s cs, pyDiv (pyMul (fin (1/2)) diag) di = some t ∧
            pySqrt sq (pyAdd (fin 1) (pyMul t t)) = some s ∧
            pyDiv (fin 1) s = some cs ∧ corner = pyPow cs 4)) := by
  cases rel with
  | some v =>
    cases h32 : pyGt v (fin (3/2)) with
    | true =>
      simp only [_illumination_metrics, h32, Option.bind_eq_bind, Option.bind_eq_some,
        Option.pure_def, Option.some_bind, if_true] at h
      obtain ⟨cr, hcr, htail⟩ := h
      obtain ⟨stops, hp, hn, hout⟩ := stage_tail_inv lg _ out htail
      exact ⟨pyMax (pyMin cr (fin 1)) (fin 0), stops, hp, hn, hout,
        Or.inl ⟨v, cr, rfl, by simp [h32, hcr], rfl⟩⟩
    | false =>
      simp only [_illumination_metrics, h32, Option.bind_eq_bind, Option.bind_eq_some,
        Option.pure_def, Bool.false_eq_true, if_false, Option.some_bind] at h
      obtain ⟨stops, hp, hn, hout⟩ := stage_tail_inv lg _ out h
      exact ⟨pyMax (pyMin v (fin 1)) (fin 0), stops, hp, hn, hout,
        Or.inl ⟨v, v, rfl, by simp [h32], rfl⟩⟩
  | none =>
    cases hfin : (isFinite di && pyGt di (fin 0)) with
    | false =>
      simp only [_illumination_metrics, hfin, Option.bind_eq_bind, Option.bind_eq_some,
        Option.pure_def, Bool.false_eq_true, if_false, Option.some_bind] at h
      obtain ⟨stops, hp, hn, hout⟩ := stage_tail_inv lg _ out h
      exact ⟨fin 1, stops, hp, hn, hout, Or.inr (Or.inl ⟨rfl, rfl, rfl⟩)⟩
    | true =>
      simp only [_illumination_metrics, hfin, Option.bind_eq_bind, Option.bind_eq_some,
        Option.pure_def, Option.some_bind, if_true] at h
      obtain ⟨t, ht, s, hs, cs, hcs, htail⟩ := h
      obtain ⟨stops, hp, hn, hout⟩ := stage_tail_inv lg _ out htail
      exact ⟨pyPow cs 4, stops, hp, hn, hout,
        Or.inr (Or.inr ⟨rfl, rfl, t, s, cs, ht, hs, hcs, rfl⟩)⟩

theorem pyMax_finpos (a b : ℚ) (ha : 0 < a) (hb : 0 < b) :
    ∃ c, 0 < c ∧ pyMax (fin a) (fin b) = fin c := by
  unfold pyMax
  cases hlt : pyLt (fin a) (fin b)
  · exact ⟨a, ha, by simp⟩
  · exact ⟨b, hb, by simp⟩

/-- the stops value produced under a positive corner ratio is never `+∞`. -/
theorem stops_bind_ne_inf (lg : ℚ → ℚ) (c st : EF) (hgt : pyGt c (fin 0) = true)
    (h : (pyDiv (fin 1) (pyMax c (fin (1/1000000000)))).bind (pyLog2 lg) = some st) :
    st ≠ EF.inf := by
  cases c with
  | fin a =>
    have ha : 0 < a := by simpa [pyGt, pyLt] using hgt
    obtain ⟨c', hc', hmax⟩ := pyMax_finpos a (1/1000000000) ha (by norm_num)
    rw [hmax] at h
    have hc0 : ¬ c' = 0 := ne_of_gt hc'
    have hinv : ¬ (1 / c' ≤ 0) := by
      simp only [not_le]
      positivity
    simp only [pyDiv, hc0, if_false, Option.some_bind, pyLog2, hinv,
      Option.some.injEq] at h
    rw [← h]
    simp
  | inf =>
    rw [show pyMax EF.inf (fin (1/1000000000)) = EF.inf from by decide] at h
    rw [show pyDiv (fin 1) EF.inf = some (fin 0) from by decide] at h
    simp only [Option.some_bind, pyLog2] at h
    norm_num at h
    exact Option.noConfusion h
  | ninf => simp [pyGt, pyLt] at hgt
  | nan => simp [pyGt, pyLt] at hgt

/-- C8 (amended): the illumination stage reports center illumination fixed
at 100, corner illumination `100 × r`, vignetting loss `max(0, 100 −
corner%)`, and exposure compensation `log2(1/max(r, 1e-9))` when `r > 0` —
the code floors the ratio at `1e-9` inside the logarithm, so for
`r < 1e-9` this differs from the claimed `log2(1/r)` — and the compensation
is `+∞` exactly when `r` is not greater than zero (in particular when
`r = 0`). -/
theorem C8_illumination_reports :
    ∀ (sq lg : ℚ → ℚ) (diag di : EF) (rel : Option EF) (out : IlluminationSec),
      _illumination_metrics sq lg diag di rel = some out →
      out.relative_illumination_center_percent = fin 100 ∧
      out.relative_illumination_corner_percent =
        pyMul (fin 100) out.corner_to_center_ratio' ∧
      out.vignetting_loss_percent =
        pyMax (fin 0) (pySub (fin 100) out.relative_illumination_corner_percent) ∧
      (pyGt out.corner_to_center_ratio' (fin 0) = true →
        (pyDiv (fin 1) (pyMax out.corner_to_center_ratio' (fin (1/1000000000)))).bind
          (pyLog2 lg) = some out.exposure_compensation_stops_at_corners) ∧
      (out.exposure_compensation_stops_at_corners = EF.inf ↔
        pyGt out.corner_to_center_ratio' (fin 0) = false) := by
  intro sq lg diag di rel out h
  obtain ⟨corner, stops, hpos, hnonpos, hout, _⟩ := illum_metrics_inv sq lg diag di rel out h
  subst hout
  refine ⟨rfl, rfl, rfl, hpos, ?_, ?_⟩
  · intro hinf
    cases hx : pyGt corner (fin 0)
    · rfl
    · exact absurd hinf (stops_bind_ne_inf lg corner stops hx (hpos hx))
  · intro hgt
    exact hnonpos hgt

/-- C8 (counterexample): a supplied relative illumination of `1e-10` is kept
by the clamp, but the stage computes `log2(1/max(1e-10, 1e-9)) = log2(1e9)`
while the claim demands `log2(1/1e-10) = log2(1e10)`; any log function
injective on positives (here: the identity) distinguishes them. -/
theorem C8_counterexample : ¬ C8_claimed := by
  intro h
  have h1 := h id id (fun a b _ _ hab => hab) (fin 0) EF.inf
    (some (fin (1/10000000000)))
    ⟨fin 100, fin (1/100000000), fin (1/10000000000), fin (9999999999/100000000),
      fin 1000000000⟩
    (by decide)
  exact absurd h1 (by decide)

/-- C8 (witness): the amended theorem applied at a supplied illumination of
1/2 (corner 50 %, loss 50 %, compensation `lg 2`). -/
theorem C8_witness :
    _illumination_metrics id id (fin 0) EF.inf (some (fin (1/2))) =
      some ⟨fin 100, fin 50, fin (1/2), fin 50, fin 2⟩ ∧
    ((⟨fin 100, fin 50, fin (1/2), fin 50, fin 2⟩ :
        IlluminationSec).relative_illumination_center_percent = fin 100 ∧
      (⟨fin 100, fin 50, fin (1/2), fin 50, fin 2⟩ :
        IlluminationSec).relative_illumination_corner_percent =
        pyMul (fin 100) (fin (1/2)) ∧
      (⟨fin 100, fin 50, fin (1/2), fin 50, fin 2⟩ :
        IlluminationSec).vignetting_loss_percent =
        pyMax (fin 0) (pySub (fin 100) (pyMul (fin 100) (fin (1/2)))) ∧
      (pyGt (fin (1/2)) (fin 0) = true →
        (pyDiv (fin 1) (pyMax (fin (1/2)) (fin (1/1000000000)))).bind (pyLog2 id) =
          some (fin 2)) ∧
      ((fin 2 : EF) = EF.inf ↔ pyGt (fin (1/2)) (fin 0) = false)) := by
  have hst : _illumination_metrics id id (fin 0) EF.inf (some (fin (1/2))) =
      some ⟨fin 100, fin 50, fin (1/2), fin 50, fin 2⟩ := by decide
  exact ⟨hst, C8_illumination_reports id id (fin 0) EF.inf (some (fin (1/2))) _ hst⟩

-- ==================================================================
-- C5: the corner-to-center illumination ratio
-- ==================================================================

/-- the clamp `max(min(x, 1.0), 0.0)` lands in [0, 1] for every non-NaN
float. -/
theorem clamp01_bounds (x : EF) (hx : x ≠ EF.nan) :
    pyLe (fin 0) (pyMax (pyMin x (fin 1)) (fin 0)) = true ∧
    pyLe (pyMax (pyMin x (fin 1)) (fin 0)) (fin 1) = true := by
  cases x with
  | nan => exact absurd rfl hx
  | inf => decide
  | ninf => decide
  | fin a =>
    unfold pyMin pyMax
    split_ifs <;> simp_all [pyLe, pyLt] <;> linarith

theorem pyDiv_100_ne_nan (v cr : EF) (hv : v ≠ EF.nan) (h : pyDiv v (fin 100) = some cr) :
    cr ≠ EF.nan := by
  cases v with
  | nan => exact absurd rfl hv
  | fin a =>
    have h100 : ¬ (100:ℚ) = 0 := by norm_num
    simp only [pyDiv, h100, if_false, Option.some.injEq] at h
    rw [← h]
    simp
  | inf =>
    rw [show pyDiv EF.inf (fin 100) = some EF.inf from by decide] at h
    rw [← Option.some.inj h]
    simp
  | ninf =>
    rw [show pyDiv EF.ninf (fin 100) = some EF.ninf from by decide] at h
    rw [← Option.some.inj h]
    simp

theorem finpos_of_guard (d : EF) (h : (isFinite d && pyGt d (fin 0)) = true) :
    ∃ c : ℚ, d = fin c ∧ 0 < c := by
  cases d with
  | fin a =>
    refine ⟨a, rfl, ?_⟩
    simpa [isFinite, pyGt, pyLt] using h
  | inf => simp [isFinite] at h
  | ninf => simp [isFinite] at h
  | nan => simp [isFinite] at h

/-- the corner ratio of the illumination stage lies in [0, 1] whenever
neither the supplied figure nor the sensor diagonal is NaN; the cos⁴ ratio
is strictly positive when the diagonal is finite, and defaults to 1.0 when
the image distance is non-finite or non-positive. -/
theorem illum_ratio_bounds (sq lg : ℚ → ℚ) (diag di : EF) (rel : Option EF)
    (out : IlluminationSec) (hsq : ∀ q : ℚ, 1 ≤ q → 1 ≤ sq q)
    (h : _illumination_metrics sq lg diag di rel = some out)
    (hrel : rel ≠ some EF.nan) (hdiag : diag ≠ EF.nan) :
    pyLe (fin 0) out.corner_to_center_ratio' = true ∧
    pyLe out.corner_to_center_ratio' (fin 1) = true ∧
    (rel = none → isFinite diag = true →
      pyLt (fin 0) out.corner_to_center_ratio' = true) ∧
    (rel = none → (isFinite di && pyGt di (fin 0)) = false →
      out.corner_to_center_ratio' = fin 1) := by
  obtain ⟨corner, stops, _, _, hout, hbr⟩ := illum_metrics_inv sq lg diag di rel out h
  subst hout
  rcases hbr with ⟨v, cr, hv, hcr, hcorner⟩ | ⟨hnone, hfin, hcorner⟩ |
    ⟨hnone, hfin, t, s, cs, ht, hs, hcs, hcorner⟩
  · -- a supplied figure: normalized then clamped
    subst hv hcorner
    have hvn : v ≠ EF.nan := fun hv' => hrel (by rw [hv'])
    have hcrn : cr ≠ EF.nan := by
      cases h32 : pyGt v (fin (3/2))
      · rw [h32] at hcr
        simp only [Bool.false_eq_true, if_false, Option.some.injEq] at hcr
        rw [← hcr]
        exact hvn
      · rw [h32] at hcr
        simp only [if_true] at hcr
        exact pyDiv_100_ne_nan v cr hvn hcr
    obtain ⟨hb1, hb2⟩ := clamp01_bounds cr hcrn
    exact ⟨hb1, hb2, fun h' => Option.noConfusion h', fun h' => Option.noConfusion h'⟩
  · -- image distance non-finite or non-positive: default 1.0
    subst hcorner
    exact ⟨show pyLe (fin 0) (fin 1) = true by decide,
      show pyLe (fin 1) (fin 1) = true by decide,
      fun _ _ => show pyLt (fin 0) (fin 1) = true by decide, fun _ _ => rfl⟩
  · -- the cos⁴ falloff
    subst hcorner
    obtain ⟨c, hdc, hcpos⟩ := finpos_of_guard di hfin
    subst hdc
    have hc0 : ¬ c = 0 := ne_of_gt hcpos
    refine ?_
    cases diag with
    | nan => exact absurd rfl hdiag
    | fin b =>
      simp only [pyMul, pyDiv, hc0, if_false, Option.some.injEq] at ht
      subst ht
      simp only [pyMul, pyAdd] at hs
      have hargpos : ¬ (1 + 1/2*b/c * (1/2*b/c) < 0) := by nlinarith [mul_self_nonneg (1/2*b/c)]
      simp only [pySqrt, hargpos, if_false, Option.some.injEq] at hs
      subst hs
      have hsv : 1 ≤ sq (1 + 1/2*b/c * (1/2*b/c)) :=
        hsq _ (by nlinarith [mul_self_nonneg (1/2*b/c)])
      have hsv0 : ¬ sq (1 + 1/2*b/c * (1/2*b/c)) = 0 := by
        intro h0
        rw [h0] at hsv
        linarith
      simp only [pyDiv, hsv0, if_false, Option.some.injEq] at hcs
      subst hcs
      have hinvpos : 0 < 1 / sq (1 + 1/2*b/c * (1/2*b/c)) := by positivity
      have hinvle : 1 / sq (1 + 1/2*b/c * (1/2*b/c)) ≤ 1 :=
        (div_le_one (by linarith)).mpr hsv
      have hp1 : 0 < (1 / sq (1 + 1/2*b/c * (1/2*b/c))) ^ 4 := pow_pos hinvpos 4
      have hp2 : (1 / sq (1 + 1/2*b/c * (1/2*b/c))) ^ 4 ≤ 1 :=
        pow_le_one₀ (le_of_lt hinvpos) hinvle
      refine ⟨?_, ?_, fun _ _ => ?_, fun _ h' => ?_⟩
      · simp only [pyPow, pyLe, decide_eq_true_eq]
        linarith
      · simp only [pyPow, pyLe, decide_eq_true_eq]
        linarith
      · simp only [pyPow, pyLt, decide_eq_true_eq]
        linarith
      · rw [hfin] at h'
        cases h'
    | inf =>
      rw [show pyMul (fin (1/2)) EF.inf = EF.inf from by decide] at ht
      simp only [pyDiv, hc0, if_false, hcpos, if_true, Option.some.injEq] at ht
      subst ht
      rw [show pyMul EF.inf EF.inf = EF.inf from by decide,
        show pyAdd (fin 1) EF.inf = EF.inf from by decide] at hs
      rw [show pySqrt sq EF.inf = some EF.inf from rfl] at hs
      have hs' := Option.some.inj hs
      subst hs'
      rw [show pyDiv (fin 1) EF.inf = some (fin 0) from by decide] at hcs
      have hcs' := Option.some.inj hcs
      subst hcs'
      refine ⟨show pyLe (fin 0) (pyPow (fin 0) 4) = true by decide,
        show pyLe (pyPow (fin 0) 4) (fin 1) = true by decide,
        fun _ h' => ?_, fun _ h' => ?_⟩
      · cases h'
      · rw [hfin] at h'
        cases h'
    | ninf =>
      rw [show pyMul (fin (1/2)) EF.ninf = EF.ninf from by decide] at ht
      simp only [pyDiv, hc0, if_false, hcpos, if_true, Option.some.injEq] at ht
      subst ht
      rw [show pyMul EF.ninf EF.ninf = EF.inf from by decide] at hs
      rw [show pyAdd (fin 1) EF.inf = EF.inf from by decide] at hs
      rw [show pySqrt sq EF.inf = some EF.inf from rfl] at hs
      have hs' := Option.some.inj hs
      subst hs'
      rw [show pyDiv (fin 1) EF.inf = some (fin 0) from by decide] at hcs
      have hcs' := Option.some.inj hcs
      subst hcs'
      refine ⟨show pyLe (fin 0) (pyPow (fin 0) 4) = true by decide,
        show pyLe (pyPow (fin 0) 4) (fin 1) = true by decide,
        fun _ h' => ?_, fun _ h' => ?_⟩
      · cases h'
      · rw [hfin] at h'
        cases h'

/-- C5 (amended): for every input whose supplied relative-illumination
figure is not NaN and whose (computed) sensor diagonal is not NaN, the
reported corner_to_center_ratio lies in [0, 1]; with no supplied figure the
cos⁴ ratio is strictly positive whenever the diagonal is finite, and is
exactly 1.0 when the image distance is non-finite or non-positive.  (As
stated the claim is false: a NaN supplied figure — e.g. the JSON NaN
literal, accepted by the shell's parser — passes the clamp unchanged and
the reported ratio is NaN, outside [0, 1].) -/
theorem C5_corner_ratio_bounds :
    ∀ (sq lg : ℚ → ℚ) (p : Params) (res : CalcResult), calculate sq lg p = some res →
      (∀ q : ℚ, 1 ≤ q → 1 ≤ sq q) →
      lens_relative_illumination p ≠ some EF.nan →
      orZero (sensor_diag_mm sq p) ≠ EF.nan →
      pyLe (fin 0) res.illumination.corner_to_center_ratio' = true ∧
      pyLe res.illumination.corner_to_center_ratio' (fin 1) = true ∧
      (lens_relative_illumination p = none →
        isFinite (orZero (sensor_diag_mm sq p)) = true →
        pyLt (fin 0) res.illumination.corner_to_center_ratio' = true) ∧
      (lens_relative_illumination p = none →
        ∀ d, di_mm p = some d → (isFinite d && pyGt d (fin 0)) = false →
        res.illumination.corner_to_center_ratio' = fin 1) := by
  intro sq lg p res h hsq hrel hdiag
  obtain ⟨sen, lgs, fov, mot, dofv, dms, cov, il, app, fl,
    _, _, _, _, _, _, _, h8, _, _, hres⟩ := calculate_inv sq lg p res h
  obtain ⟨d, hd, hst⟩ := illum_inv sq lg p il h8
  obtain ⟨hb1, hb2, hb3, hb4⟩ :=
    illum_ratio_bounds sq lg (orZero (sensor_diag_mm sq p)) d
      (lens_relative_illumination p) il hsq hst hrel hdiag
  subst hres
  refine ⟨hb1, hb2, hb3, ?_⟩
  intro hnone d' hd' hguard
  obtain rfl : d = d' := Option.some.inj (hd.symm.trans hd')
  exact hb4 hnone hguard

/-- C5 (counterexample): a NaN supplied illumination figure survives the
normalize-and-clamp path, and the reported corner_to_center_ratio is NaN,
which is not in [0, 1] (both IEEE comparisons are false). -/
theorem C5_counterexample :
    (calculate id id pC5).map (fun r => r.illumination.corner_to_center_ratio')
      = some EF.nan ∧
    pyLe (fin 0) EF.nan = false ∧ pyLe EF.nan (fin 1) = false := by
  decide

/-- C5 (witness): the amended theorem applied at inputs with no supplied
figure and a finite positive image distance, where the derived cos⁴ ratio
is strictly positive and at most 1. -/
theorem C5_witness :
    ∃ res, calculate id id pC6w = some res ∧
      (pyLe (fin 0) res.illumination.corner_to_center_ratio' = true ∧
        pyLe res.illumination.corner_to_center_ratio' (fin 1) = true ∧
        (lens_relative_illumination pC6w = none →
          isFinite (orZero (sensor_diag_mm id pC6w)) = true →
          pyLt (fin 0) res.illumination.corner_to_center_ratio' = true) ∧
        (lens_relative_illumination pC6w = none →
          ∀ d, di_mm pC6w = some d → (isFinite d && pyGt d (fin 0)) = false →
          res.illumination.corner_to_center_ratio' = fin 1)) := by
  have hs : (calculate id id pC6w).isSome = true := by decide
  exact ⟨(calculate id id pC6w).get hs, (Option.some_get hs).symm,
    C5_corner_ratio_bounds id id pC6w _ (Option.some_get hs).symm
      (fun q hq => hq) (by decide) (by decide)⟩

/-- C1: the total-core claim fails: on the empty input mapping (focal length
and f-number default to 0) `calculate` raises `ZeroDivisionError` inside
`_dof_hyperfocal` — `H = f²/(N·c)` divides by `N·c = 0` since only the
circle of confusion `c` is floored at a positive epsilon, not the f-number
factor `N` — so no result record is produced. -/
theorem C1_calculate_raises_on_empty :
    (∀ sq lg : ℚ → ℚ, calculate sq lg emptyParams = none) ∧
    _dof_hyperfocal (fin 0) (fin 0) (fin (1/1000)) (fin 0) = none := by
  constructor
  · intro sq lg
    rfl
  · decide
